import Mathlib

/-!
# Stepper motor controller (`controlAlgorithm.c`)

A shallow embedding of `vTaskMotorController`, `absVal`, `sign`,
`TIM4_IRQHandler` and `getPulsCnt`.

Conventions of the embedding.
* `int32_t` values are `Int`s; every arithmetic result that the C code stores
  in an `int32_t` is reduced with `wrap32` (two's complement wrap-around).
  `uint32_t` arithmetic is reduced with `wrapU32`.
* `PERIOD` comes from `controlAlgorithm.h`, which is not part of the sources;
  it is a parameter of every definition that uses it.
* Calls into the RTOS and the peripheral library are the environment: what a
  receive or a counter read returns is an input of a step, what is written to
  a queue, a pin or a compare register is an output of it.
* A division whose divisor is zero has no result (`none`).
-/

namespace StepperControl

/-! ## Machine integers -/

/-- Two's complement reduction of an integer to the range of `int32_t`. -/
def wrap32 (x : Int) : Int := (x + 2147483648) % 4294967296 - 2147483648

/-- Reduction of an integer to the range of `uint32_t`. -/
def wrapU32 (x : Int) : Int := x % 4294967296

/-- The value is representable as an `int32_t`. -/
def isInt32 (x : Int) : Prop := -2147483648 ≤ x ∧ x ≤ 2147483647

instance (x : Int) : Decidable (isInt32 x) := by unfold isInt32; infer_instance

/-- Signed division of C: truncation toward zero, no result on a zero divisor. -/
def cDiv (a b : Int) : Option Int :=
  if b = 0 then none else some (wrap32 (Int.tdiv a b))

/-! ## `absVal` and `sign` -/

/-- `absVal`, lines 172-182: `-1*value` is computed in `int32_t`. -/
def absVal (value : Int) : Int :=
  if value < 0 then wrap32 (-1 * value) else value

/-- `sign`, lines 192-206. -/
def sign (value : Int) : Int :=
  if value < 0 then -1 else if value > 0 then 1 else 0

/-! ## Data of the controller task -/

/-- Controller parameters `P`, `wMax`, `rLim`, `dLim` (also the fields of a
`motor_setup_t` message). -/
structure motor_setup_t where
  P : Int
  wMax : Int
  rLim : Int
  dLim : Int
  deriving DecidableEq, Repr

/-- Message of the queue between controller and interrupt handler. -/
structure ISR_message_t where
  delta : Int
  direction : Int
  deriving DecidableEq, Repr

/-- The global pulse counters `pulsCnt1` .. `pulsCnt4`. -/
structure PulseCounters where
  pulsCnt1 : Int
  pulsCnt2 : Int
  pulsCnt3 : Int
  pulsCnt4 : Int
  deriving DecidableEq, Repr

/-- Local variables of `vTaskMotorController` that live across loop
iterations: the parameters, `stepRef` and `wAct`. -/
structure ControllerState where
  params : motor_setup_t
  stepRef : Int
  wAct : Int
  deriving DecidableEq, Repr

/-- What the environment hands to one loop iteration: the results of the two
`xQueueReceive` calls, the pulse counters at the time of `getPulsCnt`, and the
value returned by the `n`-th call of `TIM_GetCounter(TIM4)` in the iteration. -/
structure CycleInput where
  setupMsg : Option motor_setup_t
  setpointMsg : Option Int
  counters : PulseCounters
  tim : Nat → Int

/-- What one loop iteration produces: the next state, the speed `wNew`, the
message overwritten into `xQueueMotorISR[queueIndex]`, and the compare
registers written, in order, as pairs (channel, value). -/
structure CycleOutput where
  state : ControllerState
  wNew : Int
  queueIndex : Int
  msg : ISR_message_t
  compareWrites : List (Nat × Int)
  deriving DecidableEq, Repr

/-! ## `getPulsCnt` -/

/-- `getPulsCnt`, lines 354-378; `fullSetup` stands for `FULL_SETUP`. -/
def getPulsCnt (fullSetup : Bool) (c : PulseCounters) (num : Nat) : Int :=
  let ret := 0
  let ret := if num = 1 then c.pulsCnt1 else ret
  let ret := if num = 2 then c.pulsCnt2 else ret
  let ret := if fullSetup then (if num = 3 then c.pulsCnt3 else ret) else ret
  let ret := if fullSetup then (if num = 4 then c.pulsCnt4 else ret) else ret
  ret

/-! ## One iteration of the controller loop -/

/-- Rate limiting, lines 83-94. -/
def rateLimit (rLim dLim wAct wRef : Int) : Int :=
  if wrap32 (wRef - wAct) > rLim then wrap32 (wAct + rLim)
  else if wrap32 (wAct - wRef) > dLim then wrap32 (wAct - dLim)
  else wRef

/-- Saturation, lines 97-107. -/
def saturate (wMax wNew : Int) : Int :=
  if absVal wNew > wMax then
    if sign wNew = -1 then wrap32 (-1 * wMax)
    else if sign wNew = 1 then wMax
    else wNew
  else wNew

/-- The divisor `2*absVal(wNew)` of line 117, as an `int32_t`. -/
def halfPeriodDivisor (wNew : Int) : Int := wrap32 (2 * absVal wNew)

/-- Delay between steps, lines 110-124: the message that is published.
`PERIOD` is taken to be a constant of type `int`, so that the division is the
signed one. -/
def stepTiming (PERIOD wNew : Int) : Option ISR_message_t :=
  if wNew = 0 then some { delta := -1, direction := 0 }
  else
    match cDiv PERIOD (halfPeriodDivisor wNew) with
    | none => none
    | some d => some { delta := d, direction := sign wNew }

/-- The argument of `TIM_SetCompareN`: `(TIM_GetCounter(TIM4)+delta)%PERIOD`,
computed in `uint32_t`: `TIM_GetCounter` returns a `uint32_t`, so `delta` is
converted to unsigned before the addition. -/
def compareValue (PERIOD cnt delta : Int) : Int :=
  wrapU32 (cnt + delta) % PERIOD

/-- The `switch (motorNumber)` of lines 133-155, with its missing `break`s:
case 2 runs on into case 3, case 4 runs on into `default`. -/
def compareSwitch (PERIOD : Int) (motorNumber : Nat) (tim : Nat → Int)
    (delta : Int) : List (Nat × Int) :=
  if motorNumber = 1 then [(1, compareValue PERIOD (tim 0) delta)]
  else if motorNumber = 2 then
    [(2, compareValue PERIOD (tim 0) delta), (3, compareValue PERIOD (tim 1) delta)]
  else if motorNumber = 3 then [(3, compareValue PERIOD (tim 0) delta)]
  else if motorNumber = 4 then [(4, compareValue PERIOD (tim 0) delta)]
  else []

/-- The reference speed `wRef`, lines 78-80, from the target, the pulse
counter reading `stepAct` and the gain. -/
def refSpeed (p : motor_setup_t) (stepRef stepAct : Int) : Int :=
  let e := wrap32 (stepRef - stepAct)
  wrap32 (e * p.P)

/-- The speed computed by one iteration, lines 76-107, from the state after
the inboxes were read and the pulse counter reading `stepAct`. -/
def newSpeed (p : motor_setup_t) (stepRef stepAct wAct : Int) : Int :=
  saturate p.wMax (rateLimit p.rLim p.dLim wAct (refSpeed p stepRef stepAct))

/-- The index `motorNumber-1` of the queue arrays, computed in `uint32_t`. -/
def queueIndex (motorNumber : Nat) : Int := wrapU32 ((motorNumber : Int) - 1)

/-- Parameters in force after the setup queue was read, lines 60-67. -/
def cycleParams (s : ControllerState) (inp : CycleInput) : motor_setup_t :=
  match inp.setupMsg with
  | some m => m
  | none => s.params

/-- Target in force after the setpoint queue was read, lines 69-72; the
message is a `uint32_t` stored into the `int32_t` `stepRef`. -/
def cycleStepRef (s : ControllerState) (inp : CycleInput) : Int :=
  match inp.setpointMsg with
  | some v => wrap32 v
  | none => s.stepRef

/-- The speed `wNew` of one iteration, lines 59-107. -/
def cycleSpeed (fullSetup : Bool) (motorNumber : Nat) (s : ControllerState)
    (inp : CycleInput) : Int :=
  newSpeed (cycleParams s inp) (cycleStepRef s inp)
    (getPulsCnt fullSetup inp.counters motorNumber) s.wAct

/-- One iteration of the loop of `vTaskMotorController`, lines 59-158. -/
def controlCycle (fullSetup : Bool) (PERIOD : Int) (motorNumber : Nat)
    (s : ControllerState) (inp : CycleInput) : Option CycleOutput :=
  let wNew := cycleSpeed fullSetup motorNumber s inp
  match stepTiming PERIOD wNew with
  | none => none
  | some msg =>
    some { state := { params := cycleParams s inp, stepRef := cycleStepRef s inp
                      wAct := wNew }
           wNew := wNew
           queueIndex := queueIndex motorNumber
           msg := msg
           compareWrites :=
             if wNew ≠ s.wAct then compareSwitch PERIOD motorNumber inp.tim msg.delta
             else [] }

/-- Consecutive iterations of the loop, one per input. -/
def runCycles (fullSetup : Bool) (PERIOD : Int) (motorNumber : Nat) :
    ControllerState → List CycleInput → Option ControllerState
  | s, [] => some s
  | s, inp :: rest =>
    match controlCycle fullSetup PERIOD motorNumber s inp with
    | none => none
    | some out => runCycles fullSetup PERIOD motorNumber out.state rest

/-- The start of `vTaskMotorController`, lines 48-50: `configASSERT` stops
the task (`false`) when its condition fails, otherwise the loop is entered. -/
def entersLoop (motorNumber : Nat) : Bool := decide (motorNumber ≤ 4)

/-! ## The timer interrupt handler -/

/-- `BitAction` of the peripheral library. -/
inductive BitAction where
  | Bit_RESET
  | Bit_SET
  deriving DecidableEq, Repr

/-- Output pins written by the handler. -/
inductive Pin where
  | GPIOD_Pin_12
  | GPIOD_Pin_13
  | GPIOD_Pin_15
  | MOTOR1_STEP
  | MOTOR1_DIR
  | MOTOR2_STEP
  | MOTOR2_DIR
  deriving DecidableEq, Repr

/-- Calls of the handler into the peripheral library and the RTOS port. -/
inductive HwEffect where
  | writeBit (pin : Pin) (v : BitAction)
  | toggleBits (pin : Pin)
  | setCompare (channel : Nat) (v : Int)
  | clearITPendingBit (channel : Nat)
  | yieldFromISR
  deriving DecidableEq, Repr

/-- The `static` variables of `TIM4_IRQHandler` together with the global
pulse counters. -/
structure IsrState where
  bitValue : BitAction
  bitValue2 : BitAction
  delta : Int
  delta2 : Int
  direction2 : Int
  direction : Int
  counters : PulseCounters
  deriving DecidableEq, Repr

/-- Initial values of the variables, lines 4-9 and 218-223. -/
def IsrState.init (PERIOD : Int) : IsrState :=
  { bitValue := .Bit_RESET, bitValue2 := .Bit_RESET
    delta := PERIOD, delta2 := PERIOD
    direction2 := 0, direction := 0
    counters := { pulsCnt1 := 0, pulsCnt2 := 0, pulsCnt3 := 0, pulsCnt4 := 0 } }

/-- What the environment hands to one invocation of the handler: the two
interrupt flags, the result of each `xQueueReceiveFromISR` (used only when the
channel's flag is set), whether that receive woke a task, and the counter
value read in each channel's block. -/
structure IsrInput where
  cc1 : Bool
  cc2 : Bool
  rx1 : Option ISR_message_t
  rx2 : Option ISR_message_t
  woken1 : Bool
  woken2 : Bool
  curTim1 : Int
  curTim2 : Int
  deriving DecidableEq, Repr

/-- The conditional expression of lines 241 and 296. -/
def toggle (b : BitAction) : BitAction :=
  if b = .Bit_RESET then .Bit_SET else .Bit_RESET

/-- New value of a pulse counter, lines 248-255 and 302-309. -/
def countStep (direction pulsCnt : Int) : Int :=
  if direction = 1 then wrap32 (pulsCnt + 1)
  else if direction = -1 then wrap32 (pulsCnt - 1)
  else pulsCnt

/-- Direction pin writes, lines 260-267 and 314-321. -/
def directionPin (pin : Pin) (direction : Int) : List HwEffect :=
  if direction = 1 then [.writeBit pin .Bit_RESET]
  else if direction = -1 then [.writeBit pin .Bit_SET]
  else []

/-- Next compare value, lines 272-280 and 324-332, computed in `uint32_t`. -/
def nextCompare (PERIOD curTim delta : Int) : Int :=
  if delta ≠ -1 then wrapU32 (curTim + delta) % PERIOD
  else wrapU32 (curTim + PERIOD) % PERIOD

/-- The block of channel 1, lines 229-283. -/
def handleCC1 (PERIOD : Int) (s : IsrState) (inp : IsrInput) :
    IsrState × List HwEffect :=
  let delta := match inp.rx1 with
    | some m => m.delta
    | none => s.delta
  let direction := match inp.rx1 with
    | some m => m.direction
    | none => s.direction
  let bitValue := if delta ≠ -1 then toggle s.bitValue else s.bitValue
  let pulsCnt1 :=
    if delta ≠ -1 then
      (if bitValue = .Bit_SET then countStep direction s.counters.pulsCnt1
       else s.counters.pulsCnt1)
    else s.counters.pulsCnt1
  let stepPins : List HwEffect :=
    if delta ≠ -1 then
      [.writeBit .GPIOD_Pin_12 bitValue, .writeBit .MOTOR1_STEP bitValue]
    else []
  ({ s with bitValue := bitValue, delta := delta, direction := direction
            counters := { s.counters with pulsCnt1 := pulsCnt1 } },
   stepPins ++ directionPin .MOTOR1_DIR direction
     ++ [.toggleBits .GPIOD_Pin_15,
         .setCompare 1 (nextCompare PERIOD inp.curTim1 delta),
         .clearITPendingBit 1])

/-- The block of channel 2, lines 286-336. Line 298 writes channel 1's
`bitValue` to pin 13. -/
def handleCC2 (PERIOD : Int) (s : IsrState) (inp : IsrInput) :
    IsrState × List HwEffect :=
  let delta2 := match inp.rx2 with
    | some m => m.delta
    | none => s.delta2
  let direction2 := match inp.rx2 with
    | some m => m.direction
    | none => s.direction2
  let bitValue2 := if delta2 ≠ -1 then toggle s.bitValue2 else s.bitValue2
  let pulsCnt2 :=
    if delta2 ≠ -1 then
      (if bitValue2 = .Bit_RESET then countStep direction2 s.counters.pulsCnt2
       else s.counters.pulsCnt2)
    else s.counters.pulsCnt2
  let stepPins : List HwEffect :=
    if delta2 ≠ -1 then
      [.writeBit .MOTOR2_STEP bitValue2, .writeBit .GPIOD_Pin_13 s.bitValue]
    else []
  ({ s with bitValue2 := bitValue2, delta2 := delta2, direction2 := direction2
            counters := { s.counters with pulsCnt2 := pulsCnt2 } },
   stepPins ++ directionPin .MOTOR2_DIR direction2
     ++ [.setCompare 2 (nextCompare PERIOD inp.curTim2 delta2),
         .clearITPendingBit 2])

/-- `TIM4_IRQHandler`, lines 216-343. -/
def TIM4_IRQHandler (PERIOD : Int) (s : IsrState) (inp : IsrInput) :
    IsrState × List HwEffect :=
  let r1 := if inp.cc1 then handleCC1 PERIOD s inp else (s, [])
  let r2 := if inp.cc2 then handleCC2 PERIOD r1.1 inp else (r1.1, [])
  let woken := (inp.cc1 && inp.woken1) || (inp.cc2 && inp.woken2)
  (r2.1, r1.2 ++ r2.2 ++ (if woken then [.yieldFromISR] else []))

/-- Consecutive invocations of the handler, one per input; the state after
the last one. -/
def runISR (PERIOD : Int) : IsrState → List IsrInput → IsrState
  | s, [] => s
  | s, inp :: rest => runISR PERIOD (TIM4_IRQHandler PERIOD s inp).1 rest

/-- State of channel 1's generator: `delta`, `direction`, `bitValue`,
`pulsCnt1`. -/
def channel1 (s : IsrState) : Int × Int × BitAction × Int :=
  (s.delta, s.direction, s.bitValue, s.counters.pulsCnt1)

/-- State of channel 2's generator: `delta2`, `direction2`, `bitValue2`,
`pulsCnt2`. -/
def channel2 (s : IsrState) : Int × Int × BitAction × Int :=
  (s.delta2, s.direction2, s.bitValue2, s.counters.pulsCnt2)

/-! ## Per-channel view of the handler -/

/-- The two channels handled by `TIM4_IRQHandler`. -/
inductive Channel where
  | cc1
  | cc2
  deriving DecidableEq, Repr

/-- The channel's interrupt flag in an invocation. -/
def Channel.pending : Channel → IsrInput → Bool
  | .cc1, inp => inp.cc1
  | .cc2, inp => inp.cc2

/-- The result of the receive from the channel's queue in an invocation. -/
def Channel.received : Channel → IsrInput → Option ISR_message_t
  | .cc1, inp => inp.rx1
  | .cc2, inp => inp.rx2

/-- The channel's persisted half-period (`delta` / `delta2`). -/
def Channel.delta : Channel → IsrState → Int
  | .cc1, s => s.delta
  | .cc2, s => s.delta2

/-- The channel's persisted direction (`direction` / `direction2`). -/
def Channel.direction : Channel → IsrState → Int
  | .cc1, s => s.direction
  | .cc2, s => s.direction2

/-- The channel's pulse counter (`pulsCnt1` / `pulsCnt2`). -/
def Channel.pulsCnt : Channel → IsrState → Int
  | .cc1, s => s.counters.pulsCnt1
  | .cc2, s => s.counters.pulsCnt2

/-! ## Concrete states used in evaluations -/

/-- Parameters of the spec's end-to-end scenarios: `P = 2`, `wMax = 1500`,
`rLim = dLim = 50`. -/
def exampleParams : motor_setup_t := { P := 2, wMax := 1500, rLim := 50, dLim := 50 }

/-- Pulse counters all zero. -/
def zeroCounters : PulseCounters :=
  { pulsCnt1 := 0, pulsCnt2 := 0, pulsCnt3 := 0, pulsCnt4 := 0 }

/-- Controller at rest at position 0 with `exampleParams`. -/
def restState : ControllerState := { params := exampleParams, stepRef := 0, wAct := 0 }

/-- A cycle input with both inboxes empty, all counters zero and the timer
counter reading `100 + n` at its `n`-th read. -/
def idleInput : CycleInput :=
  { setupMsg := none, setpointMsg := none, counters := zeroCounters
    tim := fun n => 100 + n }

/-- A compare-match event of channel 1 alone, with an empty queue. -/
def eventCC1 : IsrInput :=
  { cc1 := true, cc2 := false, rx1 := none, rx2 := none
    woken1 := false, woken2 := false, curTim1 := 0, curTim2 := 0 }

/-- A compare-match event of channel 2 alone, with an empty queue. -/
def eventCC2 : IsrInput :=
  { cc1 := false, cc2 := true, rx1 := none, rx2 := none
    woken1 := false, woken2 := false, curTim1 := 0, curTim2 := 0 }

/-- Handler state with motor 1 running forward and its counter at the
largest `int32_t`. -/
def topCounterState : IsrState :=
  { IsrState.init 65535 with
    direction := 1
    counters := { pulsCnt1 := 2147483647, pulsCnt2 := 0, pulsCnt3 := 0, pulsCnt4 := 0 } }

/-- Handler state with motor 1 running forward from counter 0. -/
def forwardState : IsrState := { IsrState.init 65535 with direction := 1 }

/-- Parameters that allow the largest `int32_t` as speed: `P = 1`,
`wMax = rLim = dLim = 2147483647`. -/
def wideParams : motor_setup_t :=
  { P := 1, wMax := 2147483647, rLim := 2147483647, dLim := 2147483647 }

/-- Controller at rest at position 0 with `wideParams`. -/
def wideState : ControllerState := { params := wideParams, stepRef := 0, wAct := 0 }

/-- A cycle input carrying the setpoint 2147483647. -/
def topSetpointInput : CycleInput := { idleInput with setpointMsg := some 2147483647 }

/-- A cycle input carrying the setpoint 1000. -/
def setpoint1000Input : CycleInput := { idleInput with setpointMsg := some 1000 }

/-- An invocation with both channels pending, a new command (300, -1) for
channel 1 and an empty queue for channel 2. -/
def bothPendingInput : IsrInput :=
  { cc1 := true, cc2 := true, rx1 := some { delta := 300, direction := -1 }, rx2 := none
    woken1 := false, woken2 := false, curTim1 := 10, curTim2 := 20 }

/-- As `bothPendingInput`, but with a new command (5, 1) for channel 2 and
other counter readings. -/
def bothPendingOtherInput : IsrInput :=
  { cc1 := true, cc2 := true, rx1 := some { delta := 300, direction := -1 }
    rx2 := some { delta := 5, direction := 1 }
    woken1 := true, woken2 := false, curTim1 := 30, curTim2 := 40 }

/-- An event of channel 1 alone that receives the command (300, -1). -/
def commandCC1Input : IsrInput := { bothPendingInput with cc2 := false }

/-- As `forwardState`, with another state of channel 2. -/
def forwardOtherState : IsrState :=
  { forwardState with
    bitValue2 := .Bit_SET, delta2 := 7, direction2 := -1
    counters := { pulsCnt1 := 0, pulsCnt2 := 99, pulsCnt3 := 0, pulsCnt4 := 0 } }

/-- A cycle input carrying the setpoint message `0xC0000000`, that is the
target `-2^30`. -/
def lowSetpointInput : CycleInput := { idleInput with setpointMsg := some 3221225472 }

/-- Controller running at speed 1000 with target 0 and `exampleParams`. -/
def runningState : ControllerState := { params := exampleParams, stepRef := 0, wAct := 1000 }

/-- A cycle input carrying a tuning message that lowers `wMax` to 100. -/
def lowerMaxInput : CycleInput :=
  { idleInput with setupMsg := some { P := 2, wMax := 100, rLim := 50, dLim := 50 } }

/-! ## Traces of the controller loop -/

/-- Consecutive iterations of the loop, one per input; the outputs of all
iterations, in order. -/
def cycleTrace (fullSetup : Bool) (PERIOD : Int) (motorNumber : Nat) :
    ControllerState → List CycleInput → Option (List CycleOutput)
  | _, [] => some []
  | s, inp :: rest =>
    match controlCycle fullSetup PERIOD motorNumber s inp with
    | none => none
    | some out =>
      match cycleTrace fullSetup PERIOD motorNumber out.state rest with
      | none => none
      | some outs => some (out :: outs)

/-! ## `getPulsCnt` with the interrupt mask -/

/-- The pulse counters together with the enable bit of the TIM4 interrupt in
the interrupt controller. -/
structure SharedState where
  counters : PulseCounters
  tim4IrqEnabled : Bool
  deriving DecidableEq, Repr

/-- `getPulsCnt`, lines 354-378, with `NVIC_DisableIRQ(TIM4_IRQn)` and
`NVIC_EnableIRQ(TIM4_IRQn)`: the value returned and the state left behind. -/
def getPulsCntCall (fullSetup : Bool) (g : SharedState) (num : Nat) : Int × SharedState :=
  let ret := 0
  let g := { g with tim4IrqEnabled := false }
  let ret := if num = 1 then g.counters.pulsCnt1 else ret
  let ret := if num = 2 then g.counters.pulsCnt2 else ret
  let ret := if fullSetup then (if num = 3 then g.counters.pulsCnt3 else ret) else ret
  let ret := if fullSetup then (if num = 4 then g.counters.pulsCnt4 else ret) else ret
  let g := { g with tim4IrqEnabled := true }
  (ret, g)

/-! ## More of the per-channel view -/

/-- The channel's toggle bit (`bitValue` / `bitValue2`). -/
def Channel.bit : Channel → IsrState → BitAction
  | .cc1, s => s.bitValue
  | .cc2, s => s.bitValue2

/-- The channel's step pin. -/
def Channel.stepPin : Channel → Pin
  | .cc1 => .MOTOR1_STEP
  | .cc2 => .MOTOR2_STEP

/-- The number of the channel's compare register. -/
def Channel.number : Channel → Nat
  | .cc1 => 1
  | .cc2 => 2

/-- The counter value read in the channel's block. -/
def Channel.curTim : Channel → IsrInput → Int
  | .cc1, inp => inp.curTim1
  | .cc2, inp => inp.curTim2

/-! ## More concrete states -/

/-- Scenario 1: at rest with `exampleParams` and the target 1000. -/
def rampStart : ControllerState := { params := exampleParams, stepRef := 1000, wAct := 0 }

/-- A cycle input with empty inboxes and motor 1's counter at `r`. -/
def readingInput (r : Int) : CycleInput :=
  { idleInput with counters := { zeroCounters with pulsCnt1 := r } }

/-- The control error `e` of line 78. -/
def controlError (stepRef stepAct : Int) : Int := wrap32 (stepRef - stepAct)

/-- A cycle input carrying the setpoint message 3221224972, that is the
target -1073742324. -/
def farSetpointInput : CycleInput := { idleInput with setpointMsg := some 3221224972 }

/-- The channel's persisted half-period once the receive of an invocation is
done, lines 233-237 and 288-292. -/
def Channel.deltaAfterReceive (ch : Channel) (s : IsrState) (inp : IsrInput) : Int :=
  match ch.received inp with
  | some m => m.delta
  | none => ch.delta s

/-- The channel's persisted direction once the receive of an invocation is
done, lines 233-237 and 288-292. -/
def Channel.directionAfterReceive (ch : Channel) (s : IsrState) (inp : IsrInput) : Int :=
  match ch.received inp with
  | some m => m.direction
  | none => ch.direction s

/-- An event of channel 1 alone that receives the stopped command (-1, 0),
with the counter at 40. -/
def stopCC1Input : IsrInput :=
  { cc1 := true, cc2 := false, rx1 := some { delta := -1, direction := 0 }, rx2 := none
    woken1 := false, woken2 := false, curTim1 := 40, curTim2 := 0 }

/-- Handler state with both motors running forward from counter 0. -/
def bothForwardState : IsrState := { IsrState.init 65535 with direction := 1, direction2 := 1 }

/-- The value of the toggle bit on which the channel counts a pulse: line 246
tests `bitValue == Bit_SET`, line 300 tests `bitValue2 == Bit_RESET`. -/
def Channel.countEdge : Channel → BitAction
  | .cc1 => .Bit_SET
  | .cc2 => .Bit_RESET

/-- A cycle input carrying a tuning message (3, 900, 20, 30) and the
setpoint 1000. -/
def tuningInput : CycleInput :=
  { idleInput with
    setupMsg := some { P := 3, wMax := 900, rLim := 20, dLim := 30 }
    setpointMsg := some 1000 }

end StepperControl


namespace StepperControl

/-! ## Arithmetic facts about the machine integers -/

theorem wrap32_of_isInt32 (x : Int) (h : isInt32 x) : wrap32 x = x := by
  unfold isInt32 at h
  unfold wrap32
  omega

theorem wrap32_isInt32 (x : Int) : isInt32 (wrap32 x) := by
  unfold isInt32 wrap32
  omega

theorem wrap32_add_wrap32 (x y : Int) : wrap32 (wrap32 x + y) = wrap32 (x + y) := by
  unfold wrap32
  omega

theorem absVal_eq_abs (w : Int) (h : isInt32 w) (hmin : w ≠ -2147483648) :
    absVal w = |w| := by
  unfold isInt32 at h
  unfold absVal wrap32
  split
  · rw [abs_of_neg (by assumption)]; omega
  · rw [abs_of_nonneg (by omega)]

/-- The divisor of the half-period is zero for exactly two speeds. -/
theorem halfPeriodDivisor_eq_zero_iff (w : Int) (h : isInt32 w) :
    halfPeriodDivisor w = 0 ↔ w = 0 ∨ w = -2147483648 := by
  unfold isInt32 at h
  unfold halfPeriodDivisor absVal wrap32
  split <;> omega

theorem sign_neg_iff (w : Int) : sign w = -1 ↔ w < 0 := by
  unfold sign
  split_ifs <;> constructor <;> intro _ <;> first | contradiction | omega

theorem sign_pos_iff (w : Int) : sign w = 1 ↔ 0 < w := by
  unfold sign
  split_ifs <;> constructor <;> intro _ <;> first | contradiction | omega

theorem sign_zero_iff (w : Int) : sign w = 0 ↔ w = 0 := by
  unfold sign
  split_ifs <;> constructor <;> intro _ <;> first | contradiction | omega

/-! ## Rate limiting and saturation -/

/-- Without overflow in the two differences, rate limiting moves the speed
by at most `rLim` upward and at most `dLim` downward. -/
theorem rateLimit_signed (rLim dLim wAct wRef : Int) (hr : 0 ≤ rLim) (hd : 0 ≤ dLim)
    (ha : isInt32 wAct) (hw : isInt32 wRef)
    (h1 : isInt32 (wRef - wAct)) (h2 : isInt32 (wAct - wRef)) :
    rateLimit rLim dLim wAct wRef - wAct ≤ rLim ∧
      wAct - rateLimit rLim dLim wAct wRef ≤ dLim := by
  unfold isInt32 at ha hw h1 h2
  unfold rateLimit wrap32
  split
  · omega
  · split <;> omega

/-- Saturation bounds every speed but the most negative `int32_t`. -/
theorem saturate_bound (wMax wNew : Int) (hm : 0 ≤ wMax) (h : isInt32 wNew)
    (hmin : wNew ≠ -2147483648) : |saturate wMax wNew| ≤ wMax := by
  unfold isInt32 at h
  rw [abs_le]
  unfold saturate
  simp only [sign_neg_iff, sign_pos_iff]
  unfold absVal wrap32
  split_ifs <;> omega

theorem rateLimit_isInt32 (rLim dLim wAct wRef : Int) (hw : isInt32 wRef) :
    isInt32 (rateLimit rLim dLim wAct wRef) := by
  unfold rateLimit
  split_ifs
  · exact wrap32_isInt32 _
  · exact wrap32_isInt32 _
  · exact hw

theorem refSpeed_isInt32 (p : motor_setup_t) (stepRef stepAct : Int) :
    isInt32 (refSpeed p stepRef stepAct) := wrap32_isInt32 _

/-- Saturation of a speed that is within the rate limits of a current speed
with `|wAct| ≤ wMax` stays within the rate limits. -/
theorem saturate_keeps_rate (wMax rLim dLim wAct w : Int) (hm : 0 ≤ wMax)
    (hr : 0 ≤ rLim) (hd : 0 ≤ dLim) (hact : |wAct| ≤ wMax) (hw : isInt32 w)
    (hu : w - wAct ≤ rLim) (hl : wAct - w ≤ dLim) :
    saturate wMax w - wAct ≤ rLim ∧ wAct - saturate wMax w ≤ dLim := by
  unfold isInt32 at hw
  rw [abs_le] at hact
  unfold saturate
  simp only [sign_neg_iff, sign_pos_iff]
  unfold absVal wrap32
  split_ifs <;> omega

/-! ## C1: rate-limit invariant -/

/-- C1 (as stated, refuted): a tuning message lowers `wMax` from 1500 to 100
while the motor runs at speed 1000 with target and position both 0; all limits
are non-negative, the cycle ends with speed 100, and the speed has changed by
900, more than `max rLim dLim = 50`. -/
theorem rate_limit_invariant_fails :
    (0 ≤ (cycleParams runningState lowerMaxInput).rLim ∧
      0 ≤ (cycleParams runningState lowerMaxInput).dLim ∧
      0 ≤ (cycleParams runningState lowerMaxInput).wMax) ∧
    runningState.wAct = 1000 ∧
    max (cycleParams runningState lowerMaxInput).rLim
      (cycleParams runningState lowerMaxInput).dLim = 50 ∧
    (controlCycle false 65535 1 runningState lowerMaxInput).map (fun o => o.wNew)
      = some 100 ∧
    ¬ (|(100 : Int) - 1000| ≤ 50) := by
  refine ⟨by decide, by decide, by decide, by decide, by decide⟩

/-- Rate limiting followed by saturation, for a current speed within the
maximum speed and without overflow in the speed difference. -/
theorem newSpeed_rate_bound (p : motor_setup_t) (stepRef stepAct wAct : Int)
    (hr : 0 ≤ p.rLim) (hd : 0 ≤ p.dLim) (hm : 0 ≤ p.wMax)
    (ha : isInt32 wAct) (hact : |wAct| ≤ p.wMax)
    (h1 : isInt32 (refSpeed p stepRef stepAct - wAct))
    (h2 : isInt32 (wAct - refSpeed p stepRef stepAct)) :
    |newSpeed p stepRef stepAct wAct - wAct| ≤ max p.rLim p.dLim := by
  have hw := refSpeed_isInt32 p stepRef stepAct
  obtain ⟨hu, hl⟩ := rateLimit_signed p.rLim p.dLim wAct _ hr hd ha hw h1 h2
  have hrl := rateLimit_isInt32 p.rLim p.dLim wAct _ hw
  obtain ⟨hu2, hl2⟩ := saturate_keeps_rate p.wMax p.rLim p.dLim wAct _ hm hr hd hact hrl hu hl
  unfold newSpeed
  rw [abs_le]
  constructor
  · have := le_max_right p.rLim p.dLim
    omega
  · have := le_max_left p.rLim p.dLim
    omega

/-- C1 (amended): in a control cycle whose parameters, after the setup inbox
is read, have non-negative `rLim`, `dLim`, `wMax`, whose current speed is a
32-bit value within the maximum speed (`|wAct| ≤ wMax`) and in which the
difference between reference speed and current speed does not overflow 32
bits, the speed the cycle ends with (after rate limiting and saturation)
differs from the current speed by at most `max rLim dLim`. -/
theorem rate_limit_invariant (fullSetup : Bool) (motorNumber : Nat)
    (s : ControllerState) (inp : CycleInput)
    (hr : 0 ≤ (cycleParams s inp).rLim) (hd : 0 ≤ (cycleParams s inp).dLim)
    (hm : 0 ≤ (cycleParams s inp).wMax)
    (ha : isInt32 s.wAct) (hact : |s.wAct| ≤ (cycleParams s inp).wMax)
    (h1 : isInt32 (refSpeed (cycleParams s inp) (cycleStepRef s inp)
      (getPulsCnt fullSetup inp.counters motorNumber) - s.wAct))
    (h2 : isInt32 (s.wAct - refSpeed (cycleParams s inp) (cycleStepRef s inp)
      (getPulsCnt fullSetup inp.counters motorNumber))) :
    |cycleSpeed fullSetup motorNumber s inp - s.wAct|
      ≤ max (cycleParams s inp).rLim (cycleParams s inp).dLim :=
  newSpeed_rate_bound _ _ _ _ hr hd hm ha hact h1 h2

/-- Witness of C1: motor 1 at rest with the example parameters receives the
setpoint 1000. -/
theorem rate_limit_invariant_witness :
    |cycleSpeed false 1 restState setpoint1000Input - restState.wAct|
      ≤ max (cycleParams restState setpoint1000Input).rLim
          (cycleParams restState setpoint1000Input).dLim :=
  rate_limit_invariant false 1 restState setpoint1000Input
    (by decide) (by decide) (by decide) (by decide) (by decide) (by decide) (by decide)

/-! ## C2: saturation -/

/-- C2 (code defect): at rest with the example parameters, a setpoint of
`-2^30` makes the rate-limited speed the most negative `int32_t`; `absVal`
returns that same negative number, the test `absVal(wNew) > wMax` fails, and
the speed leaves the saturation block unchanged, with magnitude above
`wMax = 1500`. The same speed is reached without any overflow before `absVal`
from the speed -1000 with `dLim = 2147483647`. -/
theorem saturation_misses_int_min :
    refSpeed exampleParams (-1073741824) 0 = -2147483648 ∧
    rateLimit 50 50 0 (-2147483648) = -2147483648 ∧
    (isInt32 (-2147483648 - (-1000)) ∧ isInt32 (-1000 - (-2147483648)) ∧
      rateLimit 50 2147483647 (-1000) (-2147483648) = -2147483648) ∧
    absVal (-2147483648) = -2147483648 ∧
    saturate 1500 (-2147483648) = -2147483648 ∧
    ¬ (|saturate 1500 (-2147483648)| ≤ 1500) := by
  refine ⟨by decide, by decide, by decide, by decide, by decide, by decide⟩

/-! ## C3: division by zero -/

/-- C3 (code defect): at rest with the example parameters, the setpoint
message `0xC0000000` (target `-2^30`) gives the non-zero speed `-2^31`, for
which the divisor `2*absVal(wNew)` is 0 in 32-bit arithmetic: the cycle
divides by zero and produces no command. -/
theorem half_period_divides_by_zero :
    cycleSpeed false 1 restState lowSetpointInput = -2147483648 ∧
    (-2147483648 : Int) ≠ 0 ∧
    halfPeriodDivisor (-2147483648) = 0 ∧
    stepTiming 65535 (-2147483648) = none ∧
    controlCycle false 65535 1 restState lowSetpointInput = none := by
  refine ⟨by decide, by decide, by decide, by decide, by decide⟩

/-! ## C4: rest state -/

theorem newSpeed_rest (p : motor_setup_t) (x : Int) (hr : 0 ≤ p.rLim) (hd : 0 ≤ p.dLim) :
    newSpeed p x x 0 = 0 := by
  have h0 : wrap32 0 = 0 := by decide
  have hs : sign 0 = 0 := by decide
  have hrl : rateLimit p.rLim p.dLim 0 0 = 0 := by
    unfold rateLimit wrap32
    split_ifs <;> omega
  simp only [newSpeed, refSpeed, sub_self, h0, zero_mul, hrl]
  simp [saturate, hs]

/-- One cycle at rest, for any inbox contents that leave the limits
non-negative and the target equal to the position read. -/
theorem controlCycle_rest (fullSetup : Bool) (PERIOD : Int) (motorNumber : Nat)
    (s : ControllerState) (inp : CycleInput)
    (hr : 0 ≤ (cycleParams s inp).rLim) (hd : 0 ≤ (cycleParams s inp).dLim)
    (hw : s.wAct = 0)
    (hpos : getPulsCnt fullSetup inp.counters motorNumber = cycleStepRef s inp) :
    controlCycle fullSetup PERIOD motorNumber s inp =
      some { state := { params := cycleParams s inp, stepRef := cycleStepRef s inp, wAct := 0 }
             wNew := 0
             queueIndex := queueIndex motorNumber
             msg := { delta := -1, direction := 0 }
             compareWrites := [] } := by
  have hsp : cycleSpeed fullSetup motorNumber s inp = 0 := by
    unfold cycleSpeed
    rw [hpos, hw]
    exact newSpeed_rest _ _ hr hd
  unfold controlCycle
  simp [hsp, hw, stepTiming]

/-- Cycles that start at rest, read the target as position and receive no
setpoint end at rest with the same target. -/
theorem runCycles_rest (fullSetup : Bool) (PERIOD : Int) (motorNumber : Nat) (target : Int) :
    ∀ (inps : List CycleInput) (s : ControllerState),
      0 ≤ s.params.rLim → 0 ≤ s.params.dLim → s.wAct = 0 → s.stepRef = target →
      (∀ i ∈ inps, i.setpointMsg = none ∧
        getPulsCnt fullSetup i.counters motorNumber = target ∧
        (∀ m, i.setupMsg = some m → 0 ≤ m.rLim ∧ 0 ≤ m.dLim)) →
      ∃ s', runCycles fullSetup PERIOD motorNumber s inps = some s' ∧
        s'.wAct = 0 ∧ s'.stepRef = target := by
  intro inps
  induction inps with
  | nil =>
    intro s _ _ hw ht _
    exact ⟨s, rfl, hw, ht⟩
  | cons i rest ih =>
    intro s hr hd hw ht hall
    obtain ⟨hi1, hi2, hi3⟩ := hall i (List.mem_cons_self i rest)
    have hst : cycleStepRef s i = target := by simp [cycleStepRef, hi1, ht]
    have hlim : 0 ≤ (cycleParams s i).rLim ∧ 0 ≤ (cycleParams s i).dLim := by
      cases hm : i.setupMsg with
      | none => simpa [cycleParams, hm] using ⟨hr, hd⟩
      | some m => simpa [cycleParams, hm] using hi3 m hm
    have hc := controlCycle_rest fullSetup PERIOD motorNumber s i hlim.1 hlim.2 hw
      (by rw [hst]; exact hi2)
    show ∃ s', (match controlCycle fullSetup PERIOD motorNumber s i with
      | none => none
      | some out => runCycles fullSetup PERIOD motorNumber out.state rest) = some s' ∧ _
    rw [hc]
    exact ih _ hlim.1 hlim.2 rfl hst (fun j hj => hall j (List.mem_cons_of_mem i hj))

/-- C4: when, after the inboxes are read, the rate limits are non-negative,
the target equals the pulse counter reading and the current speed is 0, one
control cycle ends with speed 0, publishes the stopped command (delta -1,
direction 0) and writes no compare register; and after any number of further
cycles in which no setpoint arrives, the counter reading is the same and the
limits stay non-negative, the speed is still 0 and the target unchanged. -/
theorem rest_state_fixed_point (fullSetup : Bool) (PERIOD : Int) (motorNumber : Nat)
    (s : ControllerState) (inp : CycleInput) (inps : List CycleInput)
    (hr : 0 ≤ (cycleParams s inp).rLim) (hd : 0 ≤ (cycleParams s inp).dLim)
    (hw : s.wAct = 0)
    (hpos : getPulsCnt fullSetup inp.counters motorNumber = cycleStepRef s inp)
    (hall : ∀ i ∈ inps, i.setpointMsg = none ∧
      getPulsCnt fullSetup i.counters motorNumber = cycleStepRef s inp ∧
      (∀ m, i.setupMsg = some m → 0 ≤ m.rLim ∧ 0 ≤ m.dLim)) :
    controlCycle fullSetup PERIOD motorNumber s inp =
      some { state := { params := cycleParams s inp, stepRef := cycleStepRef s inp, wAct := 0 }
             wNew := 0
             queueIndex := queueIndex motorNumber
             msg := { delta := -1, direction := 0 }
             compareWrites := [] } ∧
    ∃ s', runCycles fullSetup PERIOD motorNumber s (inp :: inps) = some s' ∧
      s'.wAct = 0 ∧ s'.stepRef = cycleStepRef s inp := by
  have hc := controlCycle_rest fullSetup PERIOD motorNumber s inp hr hd hw hpos
  refine ⟨hc, ?_⟩
  show ∃ s', (match controlCycle fullSetup PERIOD motorNumber s inp with
    | none => none
    | some out => runCycles fullSetup PERIOD motorNumber out.state inps) = some s' ∧ _
  rw [hc]
  exact runCycles_rest fullSetup PERIOD motorNumber (cycleStepRef s inp) inps _ hr hd rfl rfl hall

/-- Witness of C4: motor 1 at rest at position 0 with the example
parameters, followed by two more cycles. -/
theorem rest_state_fixed_point_witness :
    controlCycle false 65535 1 restState idleInput =
      some { state := { params := cycleParams restState idleInput
                        stepRef := cycleStepRef restState idleInput, wAct := 0 }
             wNew := 0
             queueIndex := queueIndex 1
             msg := { delta := -1, direction := 0 }
             compareWrites := [] } ∧
    ∃ s', runCycles false 65535 1 restState [idleInput, idleInput, idleInput] = some s' ∧
      s'.wAct = 0 ∧ s'.stepRef = cycleStepRef restState idleInput :=
  rest_state_fixed_point false 65535 1 restState idleInput [idleInput, idleInput]
    (by decide) (by decide) rfl rfl
    (by
      intro i hi
      simp only [List.mem_cons, List.mem_singleton, List.not_mem_nil, or_false, or_self] at hi
      subst hi
      exact ⟨rfl, rfl, fun m hm => by simp [idleInput] at hm⟩)

/-! ## C5: pulse counting -/

theorem toggle_toggle (b : BitAction) : toggle (toggle b) = b := by
  cases b <;> rfl

/-- One event of channel 1 with an empty queue and a running channel. -/
theorem channel1_event (PERIOD : Int) (s : IsrState) (inp : IsrInput)
    (h1 : inp.cc1 = true) (h2 : inp.rx1 = none) (hd : s.delta ≠ -1) :
    channel1 (TIM4_IRQHandler PERIOD s inp).1 =
      (s.delta, s.direction, toggle s.bitValue,
        if toggle s.bitValue = .Bit_SET then countStep s.direction s.counters.pulsCnt1
        else s.counters.pulsCnt1) := by
  cases hc : inp.cc2 <;>
    simp [TIM4_IRQHandler, handleCC1, handleCC2, channel1, h1, h2, hd, hc]

/-- One event of channel 2 with an empty queue and a running channel. -/
theorem channel2_event (PERIOD : Int) (s : IsrState) (inp : IsrInput)
    (h1 : inp.cc2 = true) (h2 : inp.rx2 = none) (hd : s.delta2 ≠ -1) :
    channel2 (TIM4_IRQHandler PERIOD s inp).1 =
      (s.delta2, s.direction2, toggle s.bitValue2,
        if toggle s.bitValue2 = .Bit_RESET then countStep s.direction2 s.counters.pulsCnt2
        else s.counters.pulsCnt2) := by
  cases hc : inp.cc1 <;>
    simp [TIM4_IRQHandler, handleCC1, handleCC2, channel2, h1, h2, hd, hc]

theorem channel1_two_events (PERIOD : Int) (s : IsrState) (e1 e2 : IsrInput)
    (h1 : e1.cc1 = true ∧ e1.rx1 = none) (h2 : e2.cc1 = true ∧ e2.rx1 = none)
    (hd : s.delta ≠ -1) :
    channel1 (runISR PERIOD s [e1, e2]) =
      (s.delta, s.direction, s.bitValue, countStep s.direction s.counters.pulsCnt1) := by
  have a1 := channel1_event PERIOD s e1 h1.1 h1.2 hd
  simp only [channel1, Prod.mk.injEq] at a1
  obtain ⟨ad, adir, ab, ac⟩ := a1
  have a2 := channel1_event PERIOD (TIM4_IRQHandler PERIOD s e1).1 e2 h2.1 h2.2
    (by rw [ad]; exact hd)
  show channel1 (TIM4_IRQHandler PERIOD (TIM4_IRQHandler PERIOD s e1).1 e2).1 = _
  rw [a2, ad, adir, ab, ac, toggle_toggle]
  cases hb : s.bitValue <;> simp [toggle]

theorem channel2_two_events (PERIOD : Int) (s : IsrState) (e1 e2 : IsrInput)
    (h1 : e1.cc2 = true ∧ e1.rx2 = none) (h2 : e2.cc2 = true ∧ e2.rx2 = none)
    (hd : s.delta2 ≠ -1) :
    channel2 (runISR PERIOD s [e1, e2]) =
      (s.delta2, s.direction2, s.bitValue2, countStep s.direction2 s.counters.pulsCnt2) := by
  have a1 := channel2_event PERIOD s e1 h1.1 h1.2 hd
  simp only [channel2, Prod.mk.injEq] at a1
  obtain ⟨ad, adir, ab, ac⟩ := a1
  have a2 := channel2_event PERIOD (TIM4_IRQHandler PERIOD s e1).1 e2 h2.1 h2.2
    (by rw [ad]; exact hd)
  show channel2 (TIM4_IRQHandler PERIOD (TIM4_IRQHandler PERIOD s e1).1 e2).1 = _
  rw [a2, ad, adir, ab, ac, toggle_toggle]
  cases hb : s.bitValue2 <;> simp [toggle]

/-- After `2*k` events of channel 1 with an empty queue the counter has been
stepped `k` times and the rest of the channel's state is as before. -/
theorem channel1_even_events (PERIOD : Int) :
    ∀ (k : Nat) (s : IsrState) (evs : List IsrInput), evs.length = 2 * k →
      (∀ ev ∈ evs, ev.cc1 = true ∧ ev.rx1 = none) → s.delta ≠ -1 →
      channel1 (runISR PERIOD s evs) =
        (s.delta, s.direction, s.bitValue, (countStep s.direction)^[k] s.counters.pulsCnt1) := by
  intro k
  induction k with
  | zero =>
    intro s evs hlen _ _
    have : evs = [] := List.length_eq_zero.mp (by simpa using hlen)
    subst this
    rfl
  | succ k ih =>
    intro s evs hlen hall hd
    match evs, hlen, hall with
    | [], hlen, _ => simp at hlen
    | [_], hlen, _ => simp at hlen; omega
    | e1 :: e2 :: rest, hlen, hall =>
      have h1 := hall e1 (by simp)
      have h2 := hall e2 (by simp)
      have two := channel1_two_events PERIOD s e1 e2 h1 h2 hd
      simp only [channel1, Prod.mk.injEq] at two
      obtain ⟨td, tdir, tb, tc⟩ := two
      have hrest : rest.length = 2 * k := by simp at hlen; omega
      have := ih (runISR PERIOD s [e1, e2]) rest hrest
        (fun ev hev => hall ev (by simp [hev])) (by rw [td]; exact hd)
      rw [td, tdir, tb, tc] at this
      rw [Function.iterate_succ_apply]
      exact this

/-- After `2*k` events of channel 2 with an empty queue the counter has been
stepped `k` times and the rest of the channel's state is as before. -/
theorem channel2_even_events (PERIOD : Int) :
    ∀ (k : Nat) (s : IsrState) (evs : List IsrInput), evs.length = 2 * k →
      (∀ ev ∈ evs, ev.cc2 = true ∧ ev.rx2 = none) → s.delta2 ≠ -1 →
      channel2 (runISR PERIOD s evs) =
        (s.delta2, s.direction2, s.bitValue2,
          (countStep s.direction2)^[k] s.counters.pulsCnt2) := by
  intro k
  induction k with
  | zero =>
    intro s evs hlen _ _
    have : evs = [] := List.length_eq_zero.mp (by simpa using hlen)
    subst this
    rfl
  | succ k ih =>
    intro s evs hlen hall hd
    match evs, hlen, hall with
    | [], hlen, _ => simp at hlen
    | [_], hlen, _ => simp at hlen; omega
    | e1 :: e2 :: rest, hlen, hall =>
      have h1 := hall e1 (by simp)
      have h2 := hall e2 (by simp)
      have two := channel2_two_events PERIOD s e1 e2 h1 h2 hd
      simp only [channel2, Prod.mk.injEq] at two
      obtain ⟨td, tdir, tb, tc⟩ := two
      have hrest : rest.length = 2 * k := by simp at hlen; omega
      have := ih (runISR PERIOD s [e1, e2]) rest hrest
        (fun ev hev => hall ev (by simp [hev])) (by rw [td]; exact hd)
      rw [td, tdir, tb, tc] at this
      rw [Function.iterate_succ_apply]
      exact this

theorem countStep_forward_iter (k : Nat) (c : Int) (hc : isInt32 c) :
    (countStep 1)^[k] c = wrap32 (c + k) := by
  induction k generalizing c with
  | zero => simp [wrap32_of_isInt32 c hc]
  | succ k ih =>
    rw [Function.iterate_succ_apply, ih _ (by simp [countStep, wrap32_isInt32])]
    simp only [countStep, if_true, wrap32_add_wrap32]
    congr 1
    push_cast
    ring

theorem countStep_backward_iter (k : Nat) (c : Int) (hc : isInt32 c) :
    (countStep (-1))^[k] c = wrap32 (c - k) := by
  induction k generalizing c with
  | zero => simp [wrap32_of_isInt32 c hc]
  | succ k ih =>
    have hstep : countStep (-1) c = wrap32 (c - 1) := by simp [countStep]
    rw [Function.iterate_succ_apply, hstep, ih _ (wrap32_isInt32 _)]
    have := wrap32_add_wrap32 (c - 1) (-(k : Int))
    simp only [← sub_eq_add_neg] at this
    rw [this]
    congr 1
    push_cast
    ring

theorem countStep_stopped_iter (k : Nat) (c : Int) : (countStep 0)^[k] c = c := by
  induction k with
  | zero => rfl
  | succ k ih => rw [Function.iterate_succ_apply]; simpa [countStep] using ih

/-- C5 (as stated, refuted): motor 1 runs forward with a non-stopped
half-period and its counter at 2147483647; after two compare-match events
with no new command the counter is -2147483648, not 2147483647 + 1. -/
theorem pulse_counting_exact_fails :
    topCounterState.delta ≠ -1 ∧ topCounterState.direction = 1 ∧
    topCounterState.counters.pulsCnt1 = 2147483647 ∧
    (runISR 65535 topCounterState [eventCC1, eventCC1]).counters.pulsCnt1 = -2147483648 ∧
    ¬ ((runISR 65535 topCounterState [eventCC1, eventCC1]).counters.pulsCnt1
        = topCounterState.counters.pulsCnt1 + 1) := by
  refine ⟨by decide, by decide, by decide, by decide, by decide⟩

/-- C5 (amended): for each of channels 1 and 2, every starting toggle bit,
every starting 32-bit counter value and every `k`, handling `2*k` consecutive
compare-match events of that channel with no new command and a persisted
half-period other than -1 changes the channel's pulse counter by `k` times the
persisted direction (1, -1 or 0) in 32-bit wrap-around arithmetic, hence by
exactly `+k`, `-k` or 0 whenever the result is representable in 32 bits. -/
theorem pulse_counting (PERIOD : Int) (ch : Channel) (s : IsrState)
    (evs : List IsrInput) (k : Nat) (hlen : evs.length = 2 * k)
    (hev : ∀ ev ∈ evs, ch.pending ev = true ∧ ch.received ev = none)
    (hd : ch.delta s ≠ -1) (hc : isInt32 (ch.pulsCnt s))
    (hdir : ch.direction s = 1 ∨ ch.direction s = -1 ∨ ch.direction s = 0) :
    ch.pulsCnt (runISR PERIOD s evs) = wrap32 (ch.pulsCnt s + k * ch.direction s) ∧
    (isInt32 (ch.pulsCnt s + k * ch.direction s) →
      ch.pulsCnt (runISR PERIOD s evs) = ch.pulsCnt s + k * ch.direction s) := by
  have key : ch.pulsCnt (runISR PERIOD s evs) = (countStep (ch.direction s))^[k] (ch.pulsCnt s) := by
    cases ch with
    | cc1 =>
      have := channel1_even_events PERIOD k s evs hlen hev hd
      simp only [channel1, Prod.mk.injEq] at this
      exact this.2.2.2
    | cc2 =>
      have := channel2_even_events PERIOD k s evs hlen hev hd
      simp only [channel2, Prod.mk.injEq] at this
      exact this.2.2.2
  have main : ch.pulsCnt (runISR PERIOD s evs) = wrap32 (ch.pulsCnt s + k * ch.direction s) := by
    rw [key]
    rcases hdir with h | h | h
    · rw [h, countStep_forward_iter k _ hc]; simp
    · rw [h, countStep_backward_iter k _ hc]; congr 1; ring
    · rw [h, countStep_stopped_iter, mul_zero, add_zero, wrap32_of_isInt32 _ hc]
  exact ⟨main, fun hr => by rw [main, wrap32_of_isInt32 _ hr]⟩

/-- Witness of C5: four events of channel 1, forward, from counter 0, leave
the counter at 2. -/
theorem pulse_counting_witness :
    Channel.cc1.delta forwardState ≠ -1 ∧ Channel.cc1.direction forwardState = 1 ∧
    Channel.cc1.pulsCnt forwardState = 0 ∧
    Channel.cc1.pulsCnt (runISR 65535 forwardState [eventCC1, eventCC1, eventCC1, eventCC1])
      = 0 + 2 :=
  ⟨by decide, by decide, by decide,
    (pulse_counting 65535 .cc1 forwardState [eventCC1, eventCC1, eventCC1, eventCC1] 2 rfl
      (by
        intro ev hev
        simp only [List.mem_cons, List.mem_singleton, List.not_mem_nil, or_false, or_self] at hev
        subst hev
        exact ⟨rfl, rfl⟩)
      (by decide) (by decide) (by decide)).2 (by decide)⟩

/-! ## C6: speed-to-timing conversion -/

/-- The published command for a speed whose double is representable. -/
theorem stepTiming_small (PERIOD w : Int) (hP0 : 0 ≤ PERIOD) (hP1 : PERIOD ≤ 2147483647)
    (hw : 2 * |w| ≤ 2147483647) :
    stepTiming PERIOD w =
      some (if w = 0 then { delta := -1, direction := 0 }
            else { delta := PERIOD / (2 * |w|), direction := sign w }) := by
  by_cases h0 : w = 0
  · simp [stepTiming, h0]
  · have habs : 0 < |w| := abs_pos.mpr h0
    have hwr : isInt32 w := by
      have := abs_le.mp (show |w| ≤ 2147483647 by omega)
      unfold isInt32
      omega
    have hmin : w ≠ -2147483648 := by
      intro h
      rw [h] at hw
      norm_num at hw
    have hdiv : halfPeriodDivisor w = 2 * |w| := by
      unfold halfPeriodDivisor
      rw [absVal_eq_abs w hwr hmin]
      exact wrap32_of_isInt32 _ (by unfold isInt32; omega)
    have hq0 : 0 ≤ PERIOD / (2 * |w|) := Int.ediv_nonneg hP0 (by omega)
    have hq1 : PERIOD / (2 * |w|) ≤ PERIOD := Int.ediv_le_self _ hP0
    have hne : (2 * |w|) ≠ 0 := by omega
    simp only [stepTiming, h0, if_false, cDiv, hdiv, hne]
    rw [Int.tdiv_eq_ediv hP0 (by omega), wrap32_of_isInt32 _ (by unfold isInt32; omega)]

/-- C6 (as stated, refuted): with `P = 1` and all limits 2147483647, the
setpoint 2147483647 from rest gives the speed 2147483647; `2*absVal(wNew)`
wraps to -2 and the published half-period is -32767, not
`PERIOD / (2*|newSpeed|) = 0`. -/
theorem step_command_timing_fails :
    (controlCycle false 65535 1 wideState topSetpointInput).map (fun o => (o.wNew, o.msg))
      = some (2147483647, { delta := -32767, direction := 1 }) ∧
    ¬ ((-32767 : Int) = 65535 / (2 * |(2147483647 : Int)|)) := by
  refine ⟨by decide, by decide⟩

/-- C6 (amended): for a timer period `0 ≤ PERIOD < 2^31` and every control
cycle whose speed `wNew` has `2*|wNew|` representable in 32 bits, the cycle
publishes a message to `xQueueMotorISR[motorNumber-1]`; it is (-1, 0) when
`wNew = 0` and otherwise (`PERIOD / (2*|wNew|)`, `sign wNew`) with the
direction 1 or -1; the published direction is 0 exactly when the published
half-period is -1. -/
theorem step_command_timing (fullSetup : Bool) (PERIOD : Int) (motorNumber : Nat)
    (s : ControllerState) (inp : CycleInput)
    (hP0 : 0 ≤ PERIOD) (hP1 : PERIOD ≤ 2147483647)
    (hw : 2 * |cycleSpeed fullSetup motorNumber s inp| ≤ 2147483647) :
    ∃ out, controlCycle fullSetup PERIOD motorNumber s inp = some out ∧
      out.wNew = cycleSpeed fullSetup motorNumber s inp ∧
      out.queueIndex = queueIndex motorNumber ∧
      out.msg = (if out.wNew = 0 then { delta := -1, direction := 0 }
                 else { delta := PERIOD / (2 * |out.wNew|), direction := sign out.wNew }) ∧
      (out.wNew = 0 ∨ out.msg.direction = 1 ∨ out.msg.direction = -1) ∧
      (out.msg.direction = 0 ↔ out.msg.delta = -1) := by
  have ht := stepTiming_small PERIOD _ hP0 hP1 hw
  have hc : controlCycle fullSetup PERIOD motorNumber s inp = some
      { state := { params := cycleParams s inp, stepRef := cycleStepRef s inp
                   wAct := cycleSpeed fullSetup motorNumber s inp }
        wNew := cycleSpeed fullSetup motorNumber s inp
        queueIndex := queueIndex motorNumber
        msg := (if cycleSpeed fullSetup motorNumber s inp = 0 then { delta := -1, direction := 0 }
                else { delta := PERIOD / (2 * |cycleSpeed fullSetup motorNumber s inp|)
                       direction := sign (cycleSpeed fullSetup motorNumber s inp) })
        compareWrites :=
          if cycleSpeed fullSetup motorNumber s inp ≠ s.wAct then
            compareSwitch PERIOD motorNumber inp.tim
              (if cycleSpeed fullSetup motorNumber s inp = 0 then
                ({ delta := -1, direction := 0 } : ISR_message_t)
               else { delta := PERIOD / (2 * |cycleSpeed fullSetup motorNumber s inp|)
                      direction := sign (cycleSpeed fullSetup motorNumber s inp) }).delta
          else [] } := by
    unfold controlCycle
    simp only [ht]
  refine ⟨_, hc, rfl, rfl, rfl, ?_, ?_⟩
  · show cycleSpeed fullSetup motorNumber s inp = 0 ∨ _
    generalize cycleSpeed fullSetup motorNumber s inp = w
    by_cases h0 : w = 0
    · exact Or.inl h0
    · right
      simp only [h0, if_false]
      rcases lt_or_gt_of_ne h0 with h | h
      · exact Or.inr ((sign_neg_iff w).mpr h)
      · exact Or.inl ((sign_pos_iff w).mpr h)
  · show ISR_message_t.direction (if cycleSpeed fullSetup motorNumber s inp = 0 then _ else _) = 0 ↔
      ISR_message_t.delta (if cycleSpeed fullSetup motorNumber s inp = 0 then _ else _) = -1
    generalize cycleSpeed fullSetup motorNumber s inp = w at hw
    by_cases h0 : w = 0
    · simp [h0]
    · simp only [h0, if_false]
      have hq0 : 0 ≤ PERIOD / (2 * |w|) := Int.ediv_nonneg hP0 (by positivity)
      constructor
      · intro h
        exact absurd ((sign_zero_iff w).mp h) h0
      · intro h
        omega

/-- Witness of C6: motor 1 at rest with the example parameters receives the
setpoint 1000; the cycle ends with speed 50 and publishes (655, 1). -/
theorem step_command_timing_witness :
    ∃ out, controlCycle false 65535 1 restState setpoint1000Input = some out ∧
      out.wNew = cycleSpeed false 1 restState setpoint1000Input ∧
      out.queueIndex = queueIndex 1 ∧
      out.msg = (if out.wNew = 0 then { delta := -1, direction := 0 }
                 else { delta := 65535 / (2 * |out.wNew|), direction := sign out.wNew }) ∧
      (out.wNew = 0 ∨ out.msg.direction = 1 ∨ out.msg.direction = -1) ∧
      (out.msg.direction = 0 ↔ out.msg.delta = -1) :=
  step_command_timing false 65535 1 restState setpoint1000Input (by decide) (by decide)
    (by decide)

/-! ## C7: acceleration and braking limits -/

/-- C7 (as stated, refuted): with `rLim = 10`, `dLim = 100`, a motor running
backward at speed -50 and a reference speed of -1000, rate limiting gives
-150: the magnitude grows (the motor accelerates) and the speed changes by
100, more than `rLim`. -/
theorem accel_brake_limits_fail :
    (0 : Int) ≤ 10 ∧ (0 : Int) ≤ 100 ∧
    rateLimit 10 100 (-50) (-1000) = -150 ∧
    |rateLimit 10 100 (-50) (-1000)| > |(-50 : Int)| ∧
    ¬ (|rateLimit 10 100 (-50) (-1000) - (-50)| ≤ 10) := by
  refine ⟨by decide, by decide, by decide, by decide, by decide⟩

/-- C7 (amended): for non-negative `rLim` and `dLim` and a reference speed
whose difference from the current speed is representable in 32 bits, rate
limiting raises the signed speed by at most `rLim` and lowers it by at most
`dLim`. Hence in forward motion (both speeds `≥ 0`) accelerating changes the
speed by at most `rLim` and braking by at most `dLim`, while in backward
motion (both speeds `≤ 0`) accelerating changes it by at most `dLim` and
braking by at most `rLim`. -/
theorem accel_brake_limits (rLim dLim wAct wRef : Int) (hr : 0 ≤ rLim) (hd : 0 ≤ dLim)
    (ha : isInt32 wAct) (hw : isInt32 wRef)
    (h1 : isInt32 (wRef - wAct)) (h2 : isInt32 (wAct - wRef)) :
    (rateLimit rLim dLim wAct wRef - wAct ≤ rLim ∧
      wAct - rateLimit rLim dLim wAct wRef ≤ dLim) ∧
    (0 ≤ wAct → 0 ≤ rateLimit rLim dLim wAct wRef →
      (|rateLimit rLim dLim wAct wRef| > |wAct| →
        |rateLimit rLim dLim wAct wRef - wAct| ≤ rLim) ∧
      (|rateLimit rLim dLim wAct wRef| < |wAct| →
        |rateLimit rLim dLim wAct wRef - wAct| ≤ dLim)) ∧
    (wAct ≤ 0 → rateLimit rLim dLim wAct wRef ≤ 0 →
      (|rateLimit rLim dLim wAct wRef| > |wAct| →
        |rateLimit rLim dLim wAct wRef - wAct| ≤ dLim) ∧
      (|rateLimit rLim dLim wAct wRef| < |wAct| →
        |rateLimit rLim dLim wAct wRef - wAct| ≤ rLim)) := by
  obtain ⟨hu, hl⟩ := rateLimit_signed rLim dLim wAct wRef hr hd ha hw h1 h2
  generalize rateLimit rLim dLim wAct wRef = w at hu hl
  refine ⟨⟨hu, hl⟩, ?_, ?_⟩
  · intro p1 p2
    rw [abs_of_nonneg p1, abs_of_nonneg p2]
    constructor <;> intro h <;> rw [abs_le] <;> constructor <;> omega
  · intro p1 p2
    rw [abs_of_nonpos p1, abs_of_nonpos p2]
    constructor <;> intro h <;> rw [abs_le] <;> constructor <;> omega

/-- Witness of C7: from rest with `rLim = 10`, `dLim = 100` and reference
speed 1000 the motor accelerates forward by exactly `rLim`. -/
theorem accel_brake_limits_witness :
    (rateLimit 10 100 0 1000 - 0 ≤ 10 ∧ 0 - rateLimit 10 100 0 1000 ≤ 100) ∧
    |rateLimit 10 100 0 1000| > |(0 : Int)| ∧
    |rateLimit 10 100 0 1000 - 0| ≤ 10 :=
  ⟨(accel_brake_limits 10 100 0 1000 (by decide) (by decide) (by decide) (by decide)
      (by decide) (by decide)).1,
    by decide,
    ((accel_brake_limits 10 100 0 1000 (by decide) (by decide) (by decide) (by decide)
      (by decide) (by decide)).2.1 (by decide) (by decide)).1 (by decide)⟩

/-! ## C8: motor id validation -/

/-- C8 (code defect): the assertion `motorNumber <= 4` lets the id 0 through;
the loop is entered and the queue arrays are indexed with
`motorNumber-1 = 4294967295`. It also lets the ids 3 and 4 through whether or
not `FULL_SETUP` is defined, and stops the task for id 5. -/
theorem startup_accepts_id_zero :
    entersLoop 0 = true ∧ queueIndex 0 = 4294967295 ∧
    (controlCycle false 65535 0 restState idleInput).map (fun o => o.queueIndex)
      = some 4294967295 ∧
    entersLoop 3 = true ∧ entersLoop 4 = true ∧ entersLoop 5 = false := by
  refine ⟨by decide, by decide, by decide, by decide, by decide, by decide⟩

/-! ## C9: channel independence -/

/-- C9: the block of channel 1 leaves `delta2`, `direction2`, `bitValue2`,
`pulsCnt2` unchanged for every received command, and the block of channel 2
leaves `delta`, `direction`, `bitValue`, `pulsCnt1` unchanged; so does an
invocation of the handler in which the other channel is not pending; and in
every invocation, both channels pending or not, the resulting state of a
channel is determined by that channel's prior state, flag and queue alone. -/
theorem channel_independence (PERIOD : Int) (s t : IsrState) (inp jnp : IsrInput) :
    channel2 (handleCC1 PERIOD s inp).1 = channel2 s ∧
    channel1 (handleCC2 PERIOD s inp).1 = channel1 s ∧
    (inp.cc2 = false → channel2 (TIM4_IRQHandler PERIOD s inp).1 = channel2 s) ∧
    (inp.cc1 = false → channel1 (TIM4_IRQHandler PERIOD s inp).1 = channel1 s) ∧
    (channel1 t = channel1 s → jnp.cc1 = inp.cc1 → jnp.rx1 = inp.rx1 →
      channel1 (TIM4_IRQHandler PERIOD t jnp).1 =
        channel1 (TIM4_IRQHandler PERIOD s inp).1) ∧
    (channel2 t = channel2 s → jnp.cc2 = inp.cc2 → jnp.rx2 = inp.rx2 →
      channel2 (TIM4_IRQHandler PERIOD t jnp).1 =
        channel2 (TIM4_IRQHandler PERIOD s inp).1) := by
  refine ⟨rfl, rfl, ?_, ?_, ?_, ?_⟩
  · intro h
    cases hc : inp.cc1 <;> simp [TIM4_IRQHandler, handleCC1, channel2, h, hc]
  · intro h
    cases hc : inp.cc2 <;> simp [TIM4_IRQHandler, handleCC2, channel1, h, hc]
  · intro hs h1 h2
    simp only [channel1, Prod.mk.injEq] at hs
    obtain ⟨e1, e2, e3, e4⟩ := hs
    cases hc1 : inp.cc1 <;> cases hc2 : inp.cc2 <;> cases hj : jnp.cc2 <;>
      simp [TIM4_IRQHandler, handleCC1, handleCC2, channel1, h1, h2, hc1, hc2, hj,
        e1, e2, e3, e4]
  · intro hs h1 h2
    simp only [channel2, Prod.mk.injEq] at hs
    obtain ⟨e1, e2, e3, e4⟩ := hs
    cases hc1 : inp.cc1 <;> cases hc2 : inp.cc2 <;> cases hj : jnp.cc1 <;>
      simp [TIM4_IRQHandler, handleCC1, handleCC2, channel2, h1, h2, hc1, hc2, hj,
        e1, e2, e3, e4]

/-- Witness of C9: an event of channel 1 that receives a command leaves
channel 2 as it was, and two invocations with both channels pending that
differ in channel 2's state and queue give channel 1 the same state. -/
theorem channel_independence_witness :
    channel2 (TIM4_IRQHandler 65535 forwardState commandCC1Input).1 = channel2 forwardState ∧
    channel1 (TIM4_IRQHandler 65535 forwardOtherState bothPendingOtherInput).1 =
      channel1 (TIM4_IRQHandler 65535 forwardState bothPendingInput).1 :=
  ⟨(channel_independence 65535 forwardState forwardState commandCC1Input
      commandCC1Input).2.2.1 rfl,
    (channel_independence 65535 forwardState forwardOtherState bothPendingInput
      bothPendingOtherInput).2.2.2.2.1 (by decide) rfl rfl⟩

/-! ## C10: immediate compare push -/

/-- C10 (code defect): motor 2 at rest receives the setpoint 1000; the speed
changes to 50, the half-period is 655, and because `case (2)` has no `break`
the cycle writes compare register 2 and then compare register 3 (with a
second counter read). Motors 1, 3 and 4 in the same situation write their own
register only. -/
theorem compare_push_motor2_writes_channel3 :
    (controlCycle false 65535 2 restState setpoint1000Input).map
        (fun o => (o.wNew, o.msg.delta, o.compareWrites))
      = some (50, 655, [(2, (100 + 655) % 65535), (3, (101 + 655) % 65535)]) ∧
    (controlCycle false 65535 1 restState setpoint1000Input).map (fun o => o.compareWrites)
      = some [(1, (100 + 655) % 65535)] ∧
    (controlCycle true 65535 3 restState setpoint1000Input).map (fun o => o.compareWrites)
      = some [(3, (100 + 655) % 65535)] ∧
    (controlCycle true 65535 4 restState setpoint1000Input).map (fun o => o.compareWrites)
      = some [(4, (100 + 655) % 65535)] := by
  refine ⟨by decide, by decide, by decide, by decide⟩

/-! ## C11: scenario 1, the ramp -/

/-- Every 32-bit speed but the most negative one has a command. -/
theorem stepTiming_some (PERIOD w : Int) (h : isInt32 w) (hmin : w ≠ -2147483648) :
    ∃ m, stepTiming PERIOD w = some m := by
  by_cases h0 : w = 0
  · exact ⟨{ delta := -1, direction := 0 }, by simp [stepTiming, h0]⟩
  · have hne : halfPeriodDivisor w ≠ 0 := by
      intro hz
      rcases (halfPeriodDivisor_eq_zero_iff w h).mp hz with h1 | h1
      · exact h0 h1
      · exact hmin h1
    exact ⟨{ delta := wrap32 (PERIOD.tdiv (halfPeriodDivisor w)), direction := sign w },
      by simp [stepTiming, h0, cDiv, hne]⟩

/-- The output of a cycle whose speed has a command. -/
theorem controlCycle_some (fullSetup : Bool) (PERIOD : Int) (motorNumber : Nat)
    (s : ControllerState) (inp : CycleInput) (m : ISR_message_t)
    (h : stepTiming PERIOD (cycleSpeed fullSetup motorNumber s inp) = some m) :
    controlCycle fullSetup PERIOD motorNumber s inp = some
      { state := { params := cycleParams s inp, stepRef := cycleStepRef s inp
                   wAct := cycleSpeed fullSetup motorNumber s inp }
        wNew := cycleSpeed fullSetup motorNumber s inp
        queueIndex := queueIndex motorNumber
        msg := m
        compareWrites :=
          if cycleSpeed fullSetup motorNumber s inp ≠ s.wAct then
            compareSwitch PERIOD motorNumber inp.tim m.delta
          else [] } := by
  unfold controlCycle
  simp only [h]

/-- One step of scenario 1 on the speed: within the rate limit of the
current speed and within the maximum speed. -/
theorem newSpeed_scenario (r wAct : Int) (hr : 2 * |1000 - r| + 1500 ≤ 2147483647)
    (hw : |wAct| ≤ 1500) :
    |newSpeed exampleParams 1000 r wAct - wAct| ≤ 50 ∧
      |newSpeed exampleParams 1000 r wAct| ≤ 1500 := by
  have hr2 := abs_le.mp (show |1000 - r| ≤ 1073741073 by omega)
  have hw2 := abs_le.mp hw
  have href : refSpeed exampleParams 1000 r = 2 * (1000 - r) := by
    unfold refSpeed exampleParams wrap32
    simp only
    omega
  have ha : isInt32 wAct := by unfold isInt32; omega
  have h1 : isInt32 (refSpeed exampleParams 1000 r - wAct) := by
    rw [href]; unfold isInt32; omega
  have h2 : isInt32 (wAct - refSpeed exampleParams 1000 r) := by
    rw [href]; unfold isInt32; omega
  have hb := newSpeed_rate_bound exampleParams 1000 r wAct (by decide) (by decide)
    (by decide) ha hw h1 h2
  have hmax : max exampleParams.rLim exampleParams.dLim = 50 := by decide
  rw [hmax] at hb
  refine ⟨hb, ?_⟩
  have hwr := refSpeed_isInt32 exampleParams 1000 r
  obtain ⟨_, hl⟩ := rateLimit_signed exampleParams.rLim exampleParams.dLim wAct _
    (by decide) (by decide) ha hwr h1 h2
  have hd50 : exampleParams.dLim = 50 := rfl
  exact saturate_bound exampleParams.wMax _ (by decide)
    (rateLimit_isInt32 _ _ _ _ hwr) (by omega)

/-- One cycle of scenario 1: it completes, keeps parameters and target, and
its speed is within 50 of the previous speed and within 1500. -/
theorem scenario_cycle (fullSetup : Bool) (PERIOD : Int) (motorNumber : Nat)
    (s : ControllerState) (i : CycleInput)
    (hp : s.params = exampleParams) (ht : s.stepRef = 1000) (hw : |s.wAct| ≤ 1500)
    (h1 : i.setupMsg = none) (h2 : i.setpointMsg = none)
    (hr : 2 * |1000 - getPulsCnt fullSetup i.counters motorNumber| + 1500 ≤ 2147483647) :
    ∃ out, controlCycle fullSetup PERIOD motorNumber s i = some out ∧
      out.state.params = exampleParams ∧ out.state.stepRef = 1000 ∧
      out.state.wAct = out.wNew ∧
      out.wNew = newSpeed exampleParams 1000
        (getPulsCnt fullSetup i.counters motorNumber) s.wAct ∧
      |out.wNew - s.wAct| ≤ 50 ∧ |out.wNew| ≤ 1500 := by
  have hcp : cycleParams s i = exampleParams := by simp [cycleParams, h1, hp]
  have hct : cycleStepRef s i = 1000 := by simp [cycleStepRef, h2, ht]
  have hsp : cycleSpeed fullSetup motorNumber s i =
      newSpeed exampleParams 1000 (getPulsCnt fullSetup i.counters motorNumber) s.wAct := by
    unfold cycleSpeed
    rw [hcp, hct]
  obtain ⟨hb1, hb2⟩ := newSpeed_scenario _ s.wAct hr hw
  have hb3 := abs_le.mp hb2
  obtain ⟨m, hm⟩ := stepTiming_some PERIOD (cycleSpeed fullSetup motorNumber s i)
    (by rw [hsp]; unfold isInt32; omega) (by rw [hsp]; omega)
  refine ⟨_, controlCycle_some fullSetup PERIOD motorNumber s i m hm, hcp, hct, rfl, hsp, ?_, ?_⟩
  · show |cycleSpeed fullSetup motorNumber s i - s.wAct| ≤ 50
    rw [hsp]; exact hb1
  · show |cycleSpeed fullSetup motorNumber s i| ≤ 1500
    rw [hsp]; exact hb2

/-- The trace of scenario 1 from any state with the scenario's parameters
and target and a speed within the maximum. -/
theorem scenario_trace (fullSetup : Bool) (PERIOD : Int) (motorNumber : Nat) :
    ∀ (inps : List CycleInput) (s : ControllerState),
      s.params = exampleParams → s.stepRef = 1000 → |s.wAct| ≤ 1500 →
      (∀ i ∈ inps, i.setupMsg = none ∧ i.setpointMsg = none ∧
        2 * |1000 - getPulsCnt fullSetup i.counters motorNumber| + 1500 ≤ 2147483647) →
      ∃ outs, cycleTrace fullSetup PERIOD motorNumber s inps = some outs ∧
        outs.length = inps.length ∧
        List.Chain (fun a b => |b - a| ≤ 50) s.wAct (outs.map (fun o => o.wNew)) ∧
        ∀ o ∈ outs, |o.wNew| ≤ 1500 := by
  intro inps
  induction inps with
  | nil =>
    intro s _ _ _ _
    exact ⟨[], rfl, rfl, List.Chain.nil, fun o ho => by simp at ho⟩
  | cons i rest ih =>
    intro s hp ht hw hall
    obtain ⟨hi1, hi2, hi3⟩ := hall i (List.mem_cons_self i rest)
    obtain ⟨out, hc, op, ot, ow, _, hb1, hb2⟩ :=
      scenario_cycle fullSetup PERIOD motorNumber s i hp ht hw hi1 hi2 hi3
    obtain ⟨outs, htr, hlen, hch, hbd⟩ := ih out.state op ot (by rw [ow]; exact hb2)
      (fun j hj => hall j (List.mem_cons_of_mem i hj))
    refine ⟨out :: outs, ?_, by simp [hlen], ?_, ?_⟩
    · show (match controlCycle fullSetup PERIOD motorNumber s i with
        | none => none
        | some out =>
          match cycleTrace fullSetup PERIOD motorNumber out.state rest with
          | none => none
          | some outs => some (out :: outs)) = some (out :: outs)
      rw [hc]
      simp only [htr]
    · rw [List.map_cons, List.chain_cons]
      rw [ow] at hch
      exact ⟨hb1, hch⟩
    · intro o ho
      rcases List.mem_cons.mp ho with h | h
      · rw [h]; exact hb2
      · exact hbd o h

/-- One step of scenario 1 while the counter reads 0, from a speed between 0
and 1500. -/
theorem newSpeed_ramp_step (w : Int) (h0 : 0 ≤ w) (h1 : w ≤ 1500) :
    newSpeed exampleParams 1000 0 w = min (w + 50) 1500 := by
  have href : refSpeed exampleParams 1000 0 = 2000 := by decide
  have e1 : wrap32 (2000 - w) = 2000 - w :=
    wrap32_of_isInt32 _ (by unfold isInt32; omega)
  have e2 : wrap32 (w + 50) = w + 50 :=
    wrap32_of_isInt32 _ (by unfold isInt32; omega)
  have hrl : rateLimit 50 50 w 2000 = w + 50 := by
    unfold rateLimit
    rw [e1, if_pos (by omega), e2]
  have hab : absVal (w + 50) = w + 50 := by
    unfold absVal
    rw [if_neg (by omega)]
  unfold newSpeed
  rw [href]
  show saturate 1500 (rateLimit 50 50 w 2000) = _
  rw [hrl]
  unfold saturate
  rw [hab]
  simp only [sign_neg_iff, sign_pos_iff]
  split_ifs <;> omega

/-- One step of scenario 1 while the counter reads 0. -/
theorem newSpeed_ramp (k : Nat) :
    newSpeed exampleParams 1000 0 (min (50 * (k : Int)) 1500)
      = min (50 * ((k + 1 : Nat) : Int)) 1500 := by
  rw [newSpeed_ramp_step _ (by omega) (by omega)]
  push_cast
  omega

/-- The speed of scenario 1 while the counter reads 0. -/
theorem scenario_ramp_zero (fullSetup : Bool) (PERIOD : Int) (motorNumber : Nat) :
    ∀ (inps : List CycleInput) (s : ControllerState) (k : Nat),
      s.params = exampleParams → s.stepRef = 1000 → s.wAct = min (50 * (k : Int)) 1500 →
      (∀ i ∈ inps, i.setupMsg = none ∧ i.setpointMsg = none ∧
        getPulsCnt fullSetup i.counters motorNumber = 0) →
      ∃ s', runCycles fullSetup PERIOD motorNumber s inps = some s' ∧
        s'.wAct = min (50 * ((k + inps.length : Nat) : Int)) 1500 := by
  intro inps
  induction inps with
  | nil =>
    intro s k _ _ hw _
    exact ⟨s, rfl, by simpa using hw⟩
  | cons i rest ih =>
    intro s k hp ht hw hall
    obtain ⟨hi1, hi2, hi3⟩ := hall i (List.mem_cons_self i rest)
    obtain ⟨out, hc, op, ot, ow, hsp, _, _⟩ :=
      scenario_cycle fullSetup PERIOD motorNumber s i hp ht
        (by rw [hw, abs_le]; omega) hi1 hi2 (by rw [hi3]; norm_num)
    rw [hi3, hw, newSpeed_ramp] at hsp
    obtain ⟨s', hrun, hs'⟩ := ih out.state (k + 1) op ot (by rw [ow, hsp])
      (fun j hj => hall j (List.mem_cons_of_mem i hj))
    refine ⟨s', ?_, ?_⟩
    · show (match controlCycle fullSetup PERIOD motorNumber s i with
        | none => none
        | some out => runCycles fullSetup PERIOD motorNumber out.state rest) = some s'
      rw [hc]
      exact hrun
    · rw [hs', List.length_cons]
      congr 3
      omega

/-- C11 (as stated, refuted): in scenario 1 on motor 1 the counter reads 0 in
the first cycle and 1073742799 in the second; the speeds are 50 and then
-1500, a change of 1550 in one cycle. -/
theorem scenario_ramp_fails :
    (cycleTrace false 65535 1 rampStart [readingInput 0, readingInput 1073742799]).map
        (fun outs => outs.map (fun o => o.wNew)) = some [50, -1500] ∧
    ¬ (|(-1500 : Int) - 50| ≤ 50) := by
  refine ⟨by decide, by decide⟩

/-- C11 (amended): with `P = 2`, `rLim = dLim = 50`, `wMax = 1500`, the
target fixed at 1000 and the motor starting from rest, for every number of
cycles and every sequence of pulse-counter readings `r` for which
`2*|1000 - r| + 1500` is representable in 32 bits, every cycle completes, each
cycle's speed differs from the previous one by at most 50 and has magnitude at
most 1500; and while the counter reads 0 the speed after `k` cycles is
`min (50*k) 1500`. -/
theorem scenario_ramp (fullSetup : Bool) (PERIOD : Int) (motorNumber : Nat)
    (inps : List CycleInput)
    (hin : ∀ i ∈ inps, i.setupMsg = none ∧ i.setpointMsg = none ∧
      2 * |1000 - getPulsCnt fullSetup i.counters motorNumber| + 1500 ≤ 2147483647) :
    (∃ outs, cycleTrace fullSetup PERIOD motorNumber rampStart inps = some outs ∧
      outs.length = inps.length ∧
      List.Chain (fun a b => |b - a| ≤ 50) 0 (outs.map (fun o => o.wNew)) ∧
      ∀ o ∈ outs, |o.wNew| ≤ 1500) ∧
    ((∀ i ∈ inps, getPulsCnt fullSetup i.counters motorNumber = 0) →
      ∃ s', runCycles fullSetup PERIOD motorNumber rampStart inps = some s' ∧
        s'.wAct = min (50 * (inps.length : Int)) 1500) := by
  constructor
  · exact scenario_trace fullSetup PERIOD motorNumber inps rampStart rfl rfl (by decide) hin
  · intro hz
    have := scenario_ramp_zero fullSetup PERIOD motorNumber inps rampStart 0 rfl rfl
      (by decide) (fun i hi => ⟨(hin i hi).1, (hin i hi).2.1, hz i hi⟩)
    simpa using this

/-- Witness of C11: two cycles of motor 1 with the counter at 0; the speeds
are within the bounds and the final speed is `min (50*2) 1500`. -/
theorem scenario_ramp_witness :
    (∃ outs, cycleTrace false 65535 1 rampStart [readingInput 0, readingInput 0] = some outs ∧
      outs.length = [readingInput 0, readingInput 0].length ∧
      List.Chain (fun a b => |b - a| ≤ 50) 0 (outs.map (fun o => o.wNew)) ∧
      ∀ o ∈ outs, |o.wNew| ≤ 1500) ∧
    ∃ s', runCycles false 65535 1 rampStart [readingInput 0, readingInput 0] = some s' ∧
      s'.wAct = min (50 * (([readingInput 0, readingInput 0] : List CycleInput).length : Int)) 1500 :=
  have hin : ∀ i ∈ [readingInput 0, readingInput 0], i.setupMsg = none ∧ i.setpointMsg = none ∧
      2 * |1000 - getPulsCnt false i.counters 1| + 1500 ≤ 2147483647 := by
    intro i hi
    simp only [List.mem_cons, List.mem_singleton, List.not_mem_nil, or_false, or_self] at hi
    subst hi
    exact ⟨rfl, rfl, by decide⟩
  ⟨(scenario_ramp false 65535 1 [readingInput 0, readingInput 0] hin).1,
    (scenario_ramp false 65535 1 [readingInput 0, readingInput 0] hin).2 (by
      intro i hi
      simp only [List.mem_cons, List.mem_singleton, List.not_mem_nil, or_false, or_self] at hi
      subst hi
      rfl)⟩

/-! ## C12: scenario 2, overshoot correction -/

theorem refSpeed_eq_controlError (p : motor_setup_t) (stepRef stepAct : Int) :
    refSpeed p stepRef stepAct = wrap32 (controlError stepRef stepAct * p.P) := rfl

/-- Rate limiting from rest toward a negative reference speed gives a
negative speed. -/
theorem rateLimit_rest_neg (rLim dLim q : Int) (hq0 : q < 0) (hq1 : -2147483647 ≤ q)
    (hd : 0 < dLim) (hr : -2147483648 < rLim) :
    rateLimit rLim dLim 0 q < 0 ∧ -2147483647 ≤ rateLimit rLim dLim 0 q := by
  have e1 : wrap32 (q - 0) = q := by
    rw [wrap32_of_isInt32 _ (by unfold isInt32; omega)]; omega
  have e2 : wrap32 (0 - q) = -q := by
    rw [wrap32_of_isInt32 _ (by unfold isInt32; omega)]; omega
  unfold rateLimit
  rw [e1, e2]
  split_ifs with h1 h2
  · rw [wrap32_of_isInt32 _ (by unfold isInt32; omega)]; omega
  · rw [wrap32_of_isInt32 _ (by unfold isInt32; omega)]; omega
  · omega

/-- Saturation of a negative speed with a positive maximum gives a negative
speed of magnitude at most the maximum. -/
theorem saturate_neg (wMax r : Int) (hm : 0 < wMax) (hr0 : r < 0) (hr1 : -2147483647 ≤ r) :
    saturate wMax r < 0 ∧ -wMax ≤ saturate wMax r := by
  have hab : absVal r = -r := by
    unfold absVal
    rw [if_pos hr0, wrap32_of_isInt32 _ (by unfold isInt32; omega)]; omega
  unfold saturate
  rw [hab]
  simp only [sign_neg_iff, sign_pos_iff]
  split_ifs with h1
  · rw [wrap32_of_isInt32 _ (by unfold isInt32; omega)]; omega
  · omega

/-- C12 (as stated, refuted): motor 1 at rest at position 0 with `P = 2`,
`dLim = 50`, `wMax = 1500` receives the target -1073742324, below the
position; `e*P` overflows to a positive reference speed, the cycle ends with
speed 50 and publishes direction 1 (forward). -/
theorem overshoot_correction_fails :
    restState.wAct = 0 ∧ 0 < restState.params.P ∧ 0 < restState.params.dLim ∧
    0 < restState.params.wMax ∧
    cycleStepRef restState farSetpointInput = -1073742324 ∧
    getPulsCnt false farSetpointInput.counters 1 = 0 ∧
    (controlCycle false 65535 1 restState farSetpointInput).map (fun o => (o.wNew, o.msg))
      = some (50, { delta := 655, direction := 1 }) := by
  refine ⟨by decide, by decide, by decide, by decide, by decide, by decide, by decide⟩

/-- C12 (amended): for a timer period `0 ≤ PERIOD < 2^31`, every state at
rest with `P > 0`, `dLim > 0`, `wMax > 0`, `2*wMax` representable in 32 bits
and `rLim` above the most negative 32-bit value, and every position greater
than the target for which the error `target - actual` and the product
`(target - actual)*P` and its negation are representable in 32 bits, one
control cycle computes a negative error, ends with a negative speed and
publishes a command with direction -1 and a half-period other than -1. -/
theorem overshoot_correction (fullSetup : Bool) (PERIOD : Int) (motorNumber : Nat)
    (s : ControllerState) (inp : CycleInput)
    (hP0 : 0 ≤ PERIOD) (hP1 : PERIOD ≤ 2147483647) (hw : s.wAct = 0)
    (hP : 0 < (cycleParams s inp).P) (hd : 0 < (cycleParams s inp).dLim)
    (hm : 0 < (cycleParams s inp).wMax) (hm2 : 2 * (cycleParams s inp).wMax ≤ 2147483647)
    (hr : -2147483648 < (cycleParams s inp).rLim)
    (hpos : cycleStepRef s inp < getPulsCnt fullSetup inp.counters motorNumber)
    (he : -2147483648 ≤ cycleStepRef s inp - getPulsCnt fullSetup inp.counters motorNumber)
    (hq : -2147483647 ≤
      (cycleStepRef s inp - getPulsCnt fullSetup inp.counters motorNumber)
        * (cycleParams s inp).P) :
    controlError (cycleStepRef s inp) (getPulsCnt fullSetup inp.counters motorNumber) < 0 ∧
    ∃ out, controlCycle fullSetup PERIOD motorNumber s inp = some out ∧
      out.wNew < 0 ∧ out.msg.direction = -1 ∧ out.msg.delta ≠ -1 := by
  have hE : controlError (cycleStepRef s inp) (getPulsCnt fullSetup inp.counters motorNumber)
      = cycleStepRef s inp - getPulsCnt fullSetup inp.counters motorNumber :=
    wrap32_of_isInt32 _ (by unfold isInt32; omega)
  have hqneg : (cycleStepRef s inp - getPulsCnt fullSetup inp.counters motorNumber)
      * (cycleParams s inp).P < 0 := mul_neg_of_neg_of_pos (by omega) hP
  have href : refSpeed (cycleParams s inp) (cycleStepRef s inp)
      (getPulsCnt fullSetup inp.counters motorNumber)
      = (cycleStepRef s inp - getPulsCnt fullSetup inp.counters motorNumber)
        * (cycleParams s inp).P := by
    rw [refSpeed_eq_controlError, hE]
    exact wrap32_of_isInt32 _ (by unfold isInt32; omega)
  have hsp : cycleSpeed fullSetup motorNumber s inp =
      saturate (cycleParams s inp).wMax
        (rateLimit (cycleParams s inp).rLim (cycleParams s inp).dLim 0
          ((cycleStepRef s inp - getPulsCnt fullSetup inp.counters motorNumber)
            * (cycleParams s inp).P)) := by
    unfold cycleSpeed newSpeed
    rw [href, hw]
  obtain ⟨r0, r1⟩ := rateLimit_rest_neg (cycleParams s inp).rLim (cycleParams s inp).dLim _
    hqneg hq hd hr
  obtain ⟨x0, x1⟩ := saturate_neg (cycleParams s inp).wMax _ hm r0 r1
  rw [← hsp] at x0 x1
  have habs : |cycleSpeed fullSetup motorNumber s inp|
      = -cycleSpeed fullSetup motorNumber s inp := abs_of_neg x0
  have ht := stepTiming_small PERIOD (cycleSpeed fullSetup motorNumber s inp) hP0 hP1
    (by rw [habs]; omega)
  rw [if_neg (by omega)] at ht
  refine ⟨by rw [hE]; omega, _, controlCycle_some fullSetup PERIOD motorNumber s inp _ ht,
    x0, ?_, ?_⟩
  · exact (sign_neg_iff _).mpr x0
  · have : 0 ≤ PERIOD / (2 * |cycleSpeed fullSetup motorNumber s inp|) :=
      Int.ediv_nonneg hP0 (by positivity)
    show PERIOD / (2 * |cycleSpeed fullSetup motorNumber s inp|) ≠ -1
    omega

/-- Witness of C12: actual position 100, target 0, at rest with the example
parameters on motor 1. -/
theorem overshoot_correction_witness :
    controlError (cycleStepRef restState (readingInput 100))
      (getPulsCnt false (readingInput 100).counters 1) < 0 ∧
    ∃ out, controlCycle false 65535 1 restState (readingInput 100) = some out ∧
      out.wNew < 0 ∧ out.msg.direction = -1 ∧ out.msg.delta ≠ -1 :=
  overshoot_correction false 65535 1 restState (readingInput 100) (by decide) (by decide)
    rfl (by decide) (by decide) (by decide) (by decide) (by decide) (by decide) (by decide)
    (by decide)

/-! ## C13: a stopped channel -/

theorem directionPin_no_step (pin q : Pin) (d : Int) (v : BitAction) (h : q ≠ pin) :
    HwEffect.writeBit q v ∉ directionPin pin d := by
  unfold directionPin
  split_ifs <;> simp [h]

theorem directionPin_no_compare (pin : Pin) (d : Int) (n : Nat) (v : Int) :
    HwEffect.setCompare n v ∉ directionPin pin d := by
  unfold directionPin
  split_ifs <;> simp

/-- C13: for each of channels 1 and 2, when the channel is pending and its
persisted half-period after the receive is -1, the invocation leaves the
channel's toggle bit and pulse counter unchanged whatever the direction, does
not write the channel's step pin, and writes the channel's compare register
exactly once, with `(curTim + PERIOD) % PERIOD` computed in `uint32_t`, which
is `(curTim + PERIOD) mod PERIOD` when the sum is representable. -/
theorem stopped_channel_frame (PERIOD : Int) (ch : Channel) (s : IsrState) (inp : IsrInput)
    (hp : ch.pending inp = true) (hd : ch.deltaAfterReceive s inp = -1) :
    ch.bit (TIM4_IRQHandler PERIOD s inp).1 = ch.bit s ∧
    ch.pulsCnt (TIM4_IRQHandler PERIOD s inp).1 = ch.pulsCnt s ∧
    (∀ v, HwEffect.writeBit ch.stepPin v ∉ (TIM4_IRQHandler PERIOD s inp).2) ∧
    HwEffect.setCompare ch.number (wrapU32 (ch.curTim inp + PERIOD) % PERIOD)
      ∈ (TIM4_IRQHandler PERIOD s inp).2 ∧
    (∀ v, HwEffect.setCompare ch.number v ∈ (TIM4_IRQHandler PERIOD s inp).2 →
      v = wrapU32 (ch.curTim inp + PERIOD) % PERIOD) ∧
    (0 ≤ ch.curTim inp + PERIOD ∧ ch.curTim inp + PERIOD < 4294967296 →
      wrapU32 (ch.curTim inp + PERIOD) % PERIOD = (ch.curTim inp + PERIOD) % PERIOD) := by
  have hlast : 0 ≤ ch.curTim inp + PERIOD ∧ ch.curTim inp + PERIOD < 4294967296 →
      wrapU32 (ch.curTim inp + PERIOD) % PERIOD = (ch.curTim inp + PERIOD) % PERIOD := by
    intro h
    unfold wrapU32
    rw [Int.emod_eq_of_lt h.1 h.2]
  cases ch with
  | cc1 =>
    simp only [Channel.pending] at hp
    simp only [Channel.deltaAfterReceive, Channel.received, Channel.delta] at hd
    refine ⟨?_, ?_, ?_, ?_, ?_, hlast⟩
    · cases hc : inp.cc2 <;>
        simp [TIM4_IRQHandler, handleCC1, handleCC2, Channel.bit, hp, hd, hc]
    · cases hc : inp.cc2 <;>
        simp [TIM4_IRQHandler, handleCC1, handleCC2, Channel.pulsCnt, hp, hd, hc]
    · intro v
      cases hc : inp.cc2 <;>
        simp [TIM4_IRQHandler, handleCC1, handleCC2, Channel.stepPin, hp, hd, hc,
          directionPin_no_step]
    · cases hc : inp.cc2 <;>
        simp [TIM4_IRQHandler, handleCC1, handleCC2, Channel.number, Channel.curTim,
          nextCompare, hp, hd, hc]
    · intro v
      cases hc : inp.cc2 <;>
        simp [TIM4_IRQHandler, handleCC1, handleCC2, Channel.number, Channel.curTim,
          nextCompare, hp, hd, hc, directionPin_no_compare]
  | cc2 =>
    simp only [Channel.pending] at hp
    simp only [Channel.deltaAfterReceive, Channel.received, Channel.delta] at hd
    refine ⟨?_, ?_, ?_, ?_, ?_, hlast⟩
    · cases hc : inp.cc1 <;>
        simp [TIM4_IRQHandler, handleCC1, handleCC2, Channel.bit, hp, hd, hc]
    · cases hc : inp.cc1 <;>
        simp [TIM4_IRQHandler, handleCC1, handleCC2, Channel.pulsCnt, hp, hd, hc]
    · intro v
      cases hc : inp.cc1 <;>
        simp [TIM4_IRQHandler, handleCC1, handleCC2, Channel.stepPin, hp, hd, hc,
          directionPin_no_step]
    · cases hc : inp.cc1 <;>
        simp [TIM4_IRQHandler, handleCC1, handleCC2, Channel.number, Channel.curTim,
          nextCompare, hp, hd, hc]
    · intro v
      cases hc : inp.cc1 <;>
        simp [TIM4_IRQHandler, handleCC1, handleCC2, Channel.number, Channel.curTim,
          nextCompare, hp, hd, hc, directionPin_no_compare]

/-- Witness of C13: motor 1 receives the stopped command with the counter at
40; bit and counter stay, the step pin is not written and compare register 1
is set to `(40 + 65535) % 65535`. -/
theorem stopped_channel_frame_witness :
    Channel.cc1.bit (TIM4_IRQHandler 65535 forwardState stopCC1Input).1
      = Channel.cc1.bit forwardState ∧
    Channel.cc1.pulsCnt (TIM4_IRQHandler 65535 forwardState stopCC1Input).1
      = Channel.cc1.pulsCnt forwardState ∧
    (∀ v, HwEffect.writeBit Channel.cc1.stepPin v
      ∉ (TIM4_IRQHandler 65535 forwardState stopCC1Input).2) ∧
    HwEffect.setCompare Channel.cc1.number ((Channel.cc1.curTim stopCC1Input + 65535) % 65535)
      ∈ (TIM4_IRQHandler 65535 forwardState stopCC1Input).2 := by
  have h := stopped_channel_frame 65535 .cc1 forwardState stopCC1Input rfl rfl
  refine ⟨h.1, h.2.1, h.2.2.1, ?_⟩
  rw [← h.2.2.2.2.2 (by decide)]
  exact h.2.2.2.1

/-! ## C15: the latest command is adopted -/

/-- The state of channel 1 after an invocation in which it is pending. -/
theorem handler_channel1 (PERIOD : Int) (s : IsrState) (inp : IsrInput)
    (hp : inp.cc1 = true) :
    channel1 (TIM4_IRQHandler PERIOD s inp).1 =
      (Channel.cc1.deltaAfterReceive s inp, Channel.cc1.directionAfterReceive s inp,
        (if Channel.cc1.deltaAfterReceive s inp ≠ -1 then toggle s.bitValue else s.bitValue),
        (if Channel.cc1.deltaAfterReceive s inp ≠ -1 then
          (if (if Channel.cc1.deltaAfterReceive s inp ≠ -1 then toggle s.bitValue
               else s.bitValue) = .Bit_SET then
            countStep (Channel.cc1.directionAfterReceive s inp) s.counters.pulsCnt1
           else s.counters.pulsCnt1)
         else s.counters.pulsCnt1)) := by
  cases hc : inp.cc2 <;> cases hrx : inp.rx1 <;>
    simp [TIM4_IRQHandler, handleCC1, handleCC2, channel1, Channel.deltaAfterReceive,
      Channel.directionAfterReceive, Channel.received, Channel.delta, Channel.direction,
      hp, hc, hrx]

/-- The state of channel 2 after an invocation in which it is pending. -/
theorem handler_channel2 (PERIOD : Int) (s : IsrState) (inp : IsrInput)
    (hp : inp.cc2 = true) :
    channel2 (TIM4_IRQHandler PERIOD s inp).1 =
      (Channel.cc2.deltaAfterReceive s inp, Channel.cc2.directionAfterReceive s inp,
        (if Channel.cc2.deltaAfterReceive s inp ≠ -1 then toggle s.bitValue2
         else s.bitValue2),
        (if Channel.cc2.deltaAfterReceive s inp ≠ -1 then
          (if (if Channel.cc2.deltaAfterReceive s inp ≠ -1 then toggle s.bitValue2
               else s.bitValue2) = .Bit_RESET then
            countStep (Channel.cc2.directionAfterReceive s inp) s.counters.pulsCnt2
           else s.counters.pulsCnt2)
         else s.counters.pulsCnt2)) := by
  cases hc : inp.cc1 <;> cases hrx : inp.rx2 <;>
    simp [TIM4_IRQHandler, handleCC1, handleCC2, channel2, Channel.deltaAfterReceive,
      Channel.directionAfterReceive, Channel.received, Channel.delta, Channel.direction,
      hp, hc, hrx]

/-- The state of a pending channel after an invocation, in the per-channel
view. -/
theorem handler_channel (PERIOD : Int) (ch : Channel) (s : IsrState) (inp : IsrInput)
    (hp : ch.pending inp = true) :
    ch.delta (TIM4_IRQHandler PERIOD s inp).1 = ch.deltaAfterReceive s inp ∧
    ch.direction (TIM4_IRQHandler PERIOD s inp).1 = ch.directionAfterReceive s inp ∧
    ch.bit (TIM4_IRQHandler PERIOD s inp).1 =
      (if ch.deltaAfterReceive s inp ≠ -1 then toggle (ch.bit s) else ch.bit s) ∧
    ch.pulsCnt (TIM4_IRQHandler PERIOD s inp).1 =
      (if ch.deltaAfterReceive s inp ≠ -1 ∧
          ch.bit (TIM4_IRQHandler PERIOD s inp).1 = ch.countEdge then
        countStep (ch.directionAfterReceive s inp) (ch.pulsCnt s)
       else ch.pulsCnt s) := by
  cases ch with
  | cc1 =>
    have h := handler_channel1 PERIOD s inp hp
    simp only [channel1, Prod.mk.injEq] at h
    obtain ⟨h1, h2, h3, h4⟩ := h
    refine ⟨h1, h2, h3, ?_⟩
    show (TIM4_IRQHandler PERIOD s inp).1.counters.pulsCnt1 = _
    rw [h4]
    show _ = if _ ∧ (TIM4_IRQHandler PERIOD s inp).1.bitValue = BitAction.Bit_SET then _ else _
    by_cases hd : Channel.cc1.deltaAfterReceive s inp = -1
    · simp [hd, h3, Channel.pulsCnt]
    · simp [hd, h3, Channel.pulsCnt]
  | cc2 =>
    have h := handler_channel2 PERIOD s inp hp
    simp only [channel2, Prod.mk.injEq] at h
    obtain ⟨h1, h2, h3, h4⟩ := h
    refine ⟨h1, h2, h3, ?_⟩
    show (TIM4_IRQHandler PERIOD s inp).1.counters.pulsCnt2 = _
    rw [h4]
    show _ = if _ ∧ (TIM4_IRQHandler PERIOD s inp).1.bitValue2 = BitAction.Bit_RESET then _ else _
    by_cases hd : Channel.cc2.deltaAfterReceive s inp = -1
    · simp [hd, h3, Channel.pulsCnt]
    · simp [hd, h3, Channel.pulsCnt]

/-- The compare write of a pending channel. -/
theorem handler_setCompare (PERIOD : Int) (ch : Channel) (s : IsrState) (inp : IsrInput)
    (hp : ch.pending inp = true) :
    HwEffect.setCompare ch.number
        (nextCompare PERIOD (ch.curTim inp) (ch.deltaAfterReceive s inp))
      ∈ (TIM4_IRQHandler PERIOD s inp).2 := by
  cases ch with
  | cc1 =>
    simp only [Channel.pending] at hp
    cases hc : inp.cc2 <;>
      simp [TIM4_IRQHandler, handleCC1, handleCC2, Channel.number, Channel.curTim,
        Channel.delta, Channel.deltaAfterReceive, Channel.received, hp, hc]
  | cc2 =>
    simp only [Channel.pending] at hp
    cases hc : inp.cc1 <;>
      simp [TIM4_IRQHandler, handleCC1, handleCC2, Channel.number, Channel.curTim,
        Channel.delta, Channel.deltaAfterReceive, Channel.received, hp, hc]

/-- C15: for each of channels 1 and 2, after an invocation in which the
channel is pending, the persisted half-period and direction are those of the
command received in that invocation if there was one and are unchanged if the
queue was empty; the toggle, the counting and the compare value of that same
invocation are computed from the half-period and direction after the
receive. -/
theorem latest_command_adopted (PERIOD : Int) (ch : Channel) (s : IsrState) (inp : IsrInput)
    (hp : ch.pending inp = true) :
    (∀ m, ch.received inp = some m →
      ch.delta (TIM4_IRQHandler PERIOD s inp).1 = m.delta ∧
      ch.direction (TIM4_IRQHandler PERIOD s inp).1 = m.direction) ∧
    (ch.received inp = none →
      ch.delta (TIM4_IRQHandler PERIOD s inp).1 = ch.delta s ∧
      ch.direction (TIM4_IRQHandler PERIOD s inp).1 = ch.direction s) ∧
    ch.delta (TIM4_IRQHandler PERIOD s inp).1 = ch.deltaAfterReceive s inp ∧
    ch.direction (TIM4_IRQHandler PERIOD s inp).1 = ch.directionAfterReceive s inp ∧
    ch.bit (TIM4_IRQHandler PERIOD s inp).1 =
      (if ch.deltaAfterReceive s inp ≠ -1 then toggle (ch.bit s) else ch.bit s) ∧
    ch.pulsCnt (TIM4_IRQHandler PERIOD s inp).1 =
      (if ch.deltaAfterReceive s inp ≠ -1 ∧
          ch.bit (TIM4_IRQHandler PERIOD s inp).1 = ch.countEdge then
        countStep (ch.directionAfterReceive s inp) (ch.pulsCnt s)
       else ch.pulsCnt s) ∧
    HwEffect.setCompare ch.number
        (nextCompare PERIOD (ch.curTim inp) (ch.deltaAfterReceive s inp))
      ∈ (TIM4_IRQHandler PERIOD s inp).2 := by
  obtain ⟨h1, h2, h3, h4⟩ := handler_channel PERIOD ch s inp hp
  refine ⟨?_, ?_, h1, h2, h3, h4, handler_setCompare PERIOD ch s inp hp⟩
  · intro m hm
    rw [h1, h2]
    simp [Channel.deltaAfterReceive, Channel.directionAfterReceive, hm]
  · intro hm
    rw [h1, h2]
    simp [Channel.deltaAfterReceive, Channel.directionAfterReceive, hm]

/-- Witness of C15: with both channels pending, channel 1 adopts the command
(300, -1) it receives and channel 2, whose queue is empty, keeps its
half-period and direction. -/
theorem latest_command_adopted_witness :
    (Channel.cc1.delta (TIM4_IRQHandler 65535 forwardState bothPendingInput).1 = 300 ∧
      Channel.cc1.direction (TIM4_IRQHandler 65535 forwardState bothPendingInput).1 = -1) ∧
    (Channel.cc2.delta (TIM4_IRQHandler 65535 forwardState bothPendingInput).1
        = Channel.cc2.delta forwardState ∧
      Channel.cc2.direction (TIM4_IRQHandler 65535 forwardState bothPendingInput).1
        = Channel.cc2.direction forwardState) :=
  ⟨(latest_command_adopted 65535 .cc1 forwardState bothPendingInput rfl).1
      { delta := 300, direction := -1 } rfl,
    (latest_command_adopted 65535 .cc2 forwardState bothPendingInput rfl).2.1 rfl⟩

/-! ## C16: edge convention of the pulse counting -/

/-- C16: in an invocation that handles channel 1 with a half-period other
than -1 after the receive, the toggle bit flips, and `pulsCnt1` is stepped by
the direction when the bit turns to SET and is unchanged when it turns to
RESET; for channel 2 `pulsCnt2` is stepped when the bit turns to RESET and is
unchanged when it turns to SET. A step adds 1 for direction 1, subtracts 1 for
direction -1 (in 32-bit arithmetic) and changes nothing for direction 0. -/
theorem edge_convention (PERIOD : Int) (s : IsrState) (inp : IsrInput) :
    (inp.cc1 = true → Channel.cc1.deltaAfterReceive s inp ≠ -1 →
      (TIM4_IRQHandler PERIOD s inp).1.bitValue = toggle s.bitValue ∧
      ((TIM4_IRQHandler PERIOD s inp).1.bitValue = .Bit_SET →
        (TIM4_IRQHandler PERIOD s inp).1.counters.pulsCnt1 =
          countStep (Channel.cc1.directionAfterReceive s inp) s.counters.pulsCnt1) ∧
      ((TIM4_IRQHandler PERIOD s inp).1.bitValue = .Bit_RESET →
        (TIM4_IRQHandler PERIOD s inp).1.counters.pulsCnt1 = s.counters.pulsCnt1)) ∧
    (inp.cc2 = true → Channel.cc2.deltaAfterReceive s inp ≠ -1 →
      (TIM4_IRQHandler PERIOD s inp).1.bitValue2 = toggle s.bitValue2 ∧
      ((TIM4_IRQHandler PERIOD s inp).1.bitValue2 = .Bit_RESET →
        (TIM4_IRQHandler PERIOD s inp).1.counters.pulsCnt2 =
          countStep (Channel.cc2.directionAfterReceive s inp) s.counters.pulsCnt2) ∧
      ((TIM4_IRQHandler PERIOD s inp).1.bitValue2 = .Bit_SET →
        (TIM4_IRQHandler PERIOD s inp).1.counters.pulsCnt2 = s.counters.pulsCnt2)) ∧
    (∀ c, countStep 1 c = wrap32 (c + 1) ∧ countStep (-1) c = wrap32 (c - 1) ∧
      countStep 0 c = c) := by
  refine ⟨?_, ?_, fun c => ⟨by simp [countStep], by simp [countStep], by simp [countStep]⟩⟩
  · intro hp hd
    have h := handler_channel1 PERIOD s inp hp
    simp only [channel1, Prod.mk.injEq] at h
    obtain ⟨_, _, h3, h4⟩ := h
    simp only [hd, ne_eq, not_false_eq_true, if_true] at h3 h4
    refine ⟨h3, ?_, ?_⟩
    · intro hb
      rw [h4, ← h3, if_pos hb]
    · intro hb
      rw [h4, ← h3, if_neg (by rw [hb]; decide)]
  · intro hp hd
    have h := handler_channel2 PERIOD s inp hp
    simp only [channel2, Prod.mk.injEq] at h
    obtain ⟨_, _, h3, h4⟩ := h
    simp only [hd, ne_eq, not_false_eq_true, if_true] at h3 h4
    refine ⟨h3, ?_, ?_⟩
    · intro hb
      rw [h4, ← h3, if_pos hb]
    · intro hb
      rw [h4, ← h3, if_neg (by rw [hb]; decide)]

/-- Witness of C16: from RESET bits and zero counters with both motors
running forward, an event of channel 1 turns its bit to SET and counts, an
event of channel 2 turns its bit to SET and does not count. -/
theorem edge_convention_witness :
    ((TIM4_IRQHandler 65535 bothForwardState eventCC1).1.bitValue
        = toggle bothForwardState.bitValue ∧
      (TIM4_IRQHandler 65535 bothForwardState eventCC1).1.counters.pulsCnt1 =
        countStep (Channel.cc1.directionAfterReceive bothForwardState eventCC1)
          bothForwardState.counters.pulsCnt1) ∧
    ((TIM4_IRQHandler 65535 bothForwardState eventCC2).1.bitValue2
        = toggle bothForwardState.bitValue2 ∧
      (TIM4_IRQHandler 65535 bothForwardState eventCC2).1.counters.pulsCnt2 =
        bothForwardState.counters.pulsCnt2) := by
  have h := (edge_convention 65535 bothForwardState eventCC1).1 rfl (by decide)
  have g := (edge_convention 65535 bothForwardState eventCC2).2.1 rfl (by decide)
  exact ⟨⟨h.1, h.2.1 (by decide)⟩, ⟨g.1, g.2.2 (by decide)⟩⟩

/-- A cycle that completes published the command of its speed. -/
theorem controlCycle_inv (fullSetup : Bool) (PERIOD : Int) (motorNumber : Nat)
    (s : ControllerState) (inp : CycleInput) (out : CycleOutput)
    (h : controlCycle fullSetup PERIOD motorNumber s inp = some out) :
    ∃ m, stepTiming PERIOD (cycleSpeed fullSetup motorNumber s inp) = some m ∧
      out = { state := { params := cycleParams s inp, stepRef := cycleStepRef s inp
                         wAct := cycleSpeed fullSetup motorNumber s inp }
              wNew := cycleSpeed fullSetup motorNumber s inp
              queueIndex := queueIndex motorNumber
              msg := m
              compareWrites :=
                if cycleSpeed fullSetup motorNumber s inp ≠ s.wAct then
                  compareSwitch PERIOD motorNumber inp.tim m.delta
                else [] } := by
  cases hs : stepTiming PERIOD (cycleSpeed fullSetup motorNumber s inp) with
  | none =>
    have hn : controlCycle fullSetup PERIOD motorNumber s inp = none := by
      unfold controlCycle
      simp only [hs]
    rw [hn] at h
    exact absurd h (by simp)
  | some m =>
    rw [controlCycle_some fullSetup PERIOD motorNumber s inp m hs] at h
    exact ⟨m, rfl, (Option.some.inj h).symm⟩

/-! ## C14: position query -/

/-- C14: `getPulsCnt(n)` returns `pulsCnt1` for `n = 1`, `pulsCnt2` for
`n = 2`, with `FULL_SETUP` also `pulsCnt3` for `n = 3` and `pulsCnt4` for
`n = 4`, and 0 for every other id; for every id it leaves all pulse counters
unchanged and leaves the TIM4 interrupt enabled. -/
theorem position_query (fullSetup : Bool) (g : SharedState) (num : Nat) :
    (getPulsCntCall fullSetup g num).1 =
      (if num = 1 then g.counters.pulsCnt1
       else if num = 2 then g.counters.pulsCnt2
       else if fullSetup = true ∧ num = 3 then g.counters.pulsCnt3
       else if fullSetup = true ∧ num = 4 then g.counters.pulsCnt4
       else 0) ∧
    (getPulsCntCall fullSetup g num).1 = getPulsCnt fullSetup g.counters num ∧
    (getPulsCntCall fullSetup g num).2.counters = g.counters ∧
    (getPulsCntCall fullSetup g num).2.tim4IrqEnabled = true := by
  refine ⟨?_, rfl, rfl, rfl⟩
  unfold getPulsCntCall
  cases fullSetup <;> simp <;> split_ifs <;> first | rfl | omega

/-! ## C17: inbox handling -/

/-- C17: a tuning message replaces all four parameters and a setpoint
message replaces the target (the `uint32_t` message stored into the `int32_t`
`stepRef`); an empty inbox leaves them as they were; the speed of that same
cycle is computed from the parameters and the target after the inboxes were
read, and a cycle that completes stores them in its state. The cycle completes
for every 32-bit speed other than `-2^31`. -/
theorem inbox_handling (fullSetup : Bool) (PERIOD : Int) (motorNumber : Nat)
    (s : ControllerState) (inp : CycleInput) :
    (∀ m, inp.setupMsg = some m → cycleParams s inp = m) ∧
    (inp.setupMsg = none → cycleParams s inp = s.params) ∧
    (∀ v, inp.setpointMsg = some v → cycleStepRef s inp = wrap32 v) ∧
    (inp.setpointMsg = none → cycleStepRef s inp = s.stepRef) ∧
    (∀ v : Int, 0 ≤ v → v ≤ 2147483647 → wrap32 v = v) ∧
    cycleSpeed fullSetup motorNumber s inp =
      saturate (cycleParams s inp).wMax
        (rateLimit (cycleParams s inp).rLim (cycleParams s inp).dLim s.wAct
          (wrap32 (controlError (cycleStepRef s inp)
            (getPulsCnt fullSetup inp.counters motorNumber) * (cycleParams s inp).P))) ∧
    (∀ out, controlCycle fullSetup PERIOD motorNumber s inp = some out →
      out.state.params = cycleParams s inp ∧ out.state.stepRef = cycleStepRef s inp ∧
      out.wNew = cycleSpeed fullSetup motorNumber s inp) ∧
    (isInt32 (cycleSpeed fullSetup motorNumber s inp) →
      cycleSpeed fullSetup motorNumber s inp ≠ -2147483648 →
      ∃ out, controlCycle fullSetup PERIOD motorNumber s inp = some out) := by
  refine ⟨?_, ?_, ?_, ?_, ?_, rfl, ?_, ?_⟩
  · intro m hm; simp [cycleParams, hm]
  · intro hm; simp [cycleParams, hm]
  · intro v hv; simp [cycleStepRef, hv]
  · intro hv; simp [cycleStepRef, hv]
  · intro v h0 h1
    exact wrap32_of_isInt32 v (by unfold isInt32; omega)
  · intro out hout
    obtain ⟨m, _, ho⟩ := controlCycle_inv fullSetup PERIOD motorNumber s inp out hout
    rw [ho]
    exact ⟨rfl, rfl, rfl⟩
  · intro h1 h2
    obtain ⟨m, hm⟩ := stepTiming_some PERIOD _ h1 h2
    exact ⟨_, controlCycle_some fullSetup PERIOD motorNumber s inp m hm⟩

/-- Witness of C17: motor 1 at rest receives the tuning message
(3, 900, 20, 30) and the setpoint 1000 in the same cycle; the cycle uses both
and completes. -/
theorem inbox_handling_witness :
    cycleParams restState tuningInput = { P := 3, wMax := 900, rLim := 20, dLim := 30 } ∧
    cycleStepRef restState tuningInput = wrap32 1000 ∧
    wrap32 1000 = 1000 ∧
    cycleParams restState idleInput = restState.params ∧
    cycleStepRef restState idleInput = restState.stepRef ∧
    ∃ out, controlCycle false 65535 1 restState tuningInput = some out :=
  ⟨(inbox_handling false 65535 1 restState tuningInput).1 _ rfl,
    (inbox_handling false 65535 1 restState tuningInput).2.2.1 _ rfl,
    (inbox_handling false 65535 1 restState tuningInput).2.2.2.2.1 1000 (by decide) (by decide),
    (inbox_handling false 65535 1 restState idleInput).2.1 rfl,
    (inbox_handling false 65535 1 restState idleInput).2.2.2.1 rfl,
    (inbox_handling false 65535 1 restState tuningInput).2.2.2.2.2.2.2 (by decide) (by decide)⟩

/-! ## C18: compare values stay inside the timer period -/

theorem compareValue_range (PERIOD cnt delta : Int) (hP : 0 < PERIOD) :
    0 ≤ compareValue PERIOD cnt delta ∧ compareValue PERIOD cnt delta < PERIOD :=
  ⟨Int.emod_nonneg _ (by omega), Int.emod_lt_of_pos _ hP⟩

theorem nextCompare_range (PERIOD cur delta : Int) (hP : 0 < PERIOD) :
    0 ≤ nextCompare PERIOD cur delta ∧ nextCompare PERIOD cur delta < PERIOD := by
  unfold nextCompare
  split_ifs
  · exact ⟨Int.emod_nonneg _ (by omega), Int.emod_lt_of_pos _ hP⟩
  · exact ⟨Int.emod_nonneg _ (by omega), Int.emod_lt_of_pos _ hP⟩

theorem wrapU32_of_range (x : Int) (h0 : 0 ≤ x) (h1 : x < 4294967296) : wrapU32 x = x :=
  Int.emod_eq_of_lt h0 h1

/-- Every compare write of the switch uses one of the first two counter
reads. -/
theorem compareSwitch_mem (PERIOD : Int) (motorNumber : Nat) (tim : Nat → Int) (delta : Int)
    (cv : Nat × Int) (h : cv ∈ compareSwitch PERIOD motorNumber tim delta) :
    ∃ k, k < 2 ∧ cv.2 = compareValue PERIOD (tim k) delta := by
  unfold compareSwitch at h
  split_ifs at h
  · simp only [List.mem_singleton] at h
    exact ⟨0, by omega, by rw [h]⟩
  · simp only [List.mem_cons, List.mem_singleton, List.not_mem_nil, or_false] at h
    rcases h with h | h
    · exact ⟨0, by omega, by rw [h]⟩
    · exact ⟨1, by omega, by rw [h]⟩
  · simp only [List.mem_singleton] at h
    exact ⟨0, by omega, by rw [h]⟩
  · simp only [List.mem_singleton] at h
    exact ⟨0, by omega, by rw [h]⟩
  · simp at h

/-- The half-period of a published command is a 32-bit value. -/
theorem stepTiming_delta_isInt32 (PERIOD w : Int) (m : ISR_message_t)
    (h : stepTiming PERIOD w = some m) : isInt32 m.delta := by
  unfold stepTiming at h
  split_ifs at h with h0
  · simp only [Option.some.injEq] at h
    rw [← h]
    decide
  · unfold cDiv at h
    split_ifs at h with hz
    simp only [Option.some.injEq] at h
    rw [← h]
    exact wrap32_isInt32 _

/-- Every compare write of the handler is a value of `nextCompare`. -/
theorem handler_setCompare_mem (PERIOD : Int) (s : IsrState) (inp : IsrInput) (n : Nat)
    (v : Int) (h : HwEffect.setCompare n v ∈ (TIM4_IRQHandler PERIOD s inp).2) :
    ∃ cur d, v = nextCompare PERIOD cur d := by
  cases hc1 : inp.cc1 <;> cases hc2 : inp.cc2 <;>
    simp [TIM4_IRQHandler, handleCC1, handleCC2, hc1, hc2, directionPin_no_compare] at h
  · exact ⟨_, _, h.2⟩
  · exact ⟨_, _, h.2⟩
  · rcases h with h | h
    · exact ⟨_, _, h.2⟩
    · exact ⟨_, _, h.2⟩

/-- C18: for a timer period `0 < PERIOD < 2^31` and counter readings below
`PERIOD`, every compare value written by the controller's immediate push
(whatever the published half-period, -1 included) and every compare value
written by the handler is `≥ 0` and `< PERIOD`; for a published half-period
`≥ 0` the controller writes `(counter + delta) mod PERIOD`, and for a pending
channel whose half-period after the receive is a non-negative 32-bit value the
handler writes `(counter + delta) mod PERIOD`. -/
theorem compare_values_in_period (fullSetup : Bool) (PERIOD : Int) (motorNumber : Nat)
    (s : ControllerState) (inp : CycleInput) (isr : IsrState) (ev : IsrInput)
    (hP0 : 0 < PERIOD) (hP1 : PERIOD ≤ 2147483647)
    (htim : ∀ k, k < 2 → 0 ≤ inp.tim k ∧ inp.tim k < PERIOD)
    (hc1 : 0 ≤ ev.curTim1 ∧ ev.curTim1 < PERIOD)
    (hc2 : 0 ≤ ev.curTim2 ∧ ev.curTim2 < PERIOD) :
    (∀ out, controlCycle fullSetup PERIOD motorNumber s inp = some out →
      ∀ cv ∈ out.compareWrites, 0 ≤ cv.2 ∧ cv.2 < PERIOD ∧
        (0 ≤ out.msg.delta → ∃ k, k < 2 ∧ cv.2 = (inp.tim k + out.msg.delta) % PERIOD)) ∧
    (∀ n v, HwEffect.setCompare n v ∈ (TIM4_IRQHandler PERIOD isr ev).2 →
      0 ≤ v ∧ v < PERIOD) ∧
    (∀ ch : Channel, ch.pending ev = true → 0 ≤ ch.deltaAfterReceive isr ev →
      ch.deltaAfterReceive isr ev ≤ 2147483647 →
      HwEffect.setCompare ch.number ((ch.curTim ev + ch.deltaAfterReceive isr ev) % PERIOD)
        ∈ (TIM4_IRQHandler PERIOD isr ev).2) := by
  refine ⟨?_, ?_, ?_⟩
  · intro out hout cv hcv
    obtain ⟨m, hm, ho⟩ := controlCycle_inv fullSetup PERIOD motorNumber s inp out hout
    have hd := stepTiming_delta_isInt32 PERIOD _ m hm
    unfold isInt32 at hd
    rw [ho] at hcv ⊢
    simp only at hcv ⊢
    split_ifs at hcv with hne
    · obtain ⟨k, hk, hv⟩ := compareSwitch_mem PERIOD motorNumber inp.tim m.delta cv hcv
      obtain ⟨r0, r1⟩ := compareValue_range PERIOD (inp.tim k) m.delta hP0
      refine ⟨by rw [hv]; exact r0, by rw [hv]; exact r1, fun h0 => ⟨k, hk, ?_⟩⟩
      rw [hv]
      unfold compareValue
      have := htim k hk
      rw [wrapU32_of_range _ (by omega) (by omega)]
    · simp at hcv
  · intro n v h
    obtain ⟨cur, d, hv⟩ := handler_setCompare_mem PERIOD isr ev n v h
    rw [hv]
    exact nextCompare_range PERIOD cur d hP0
  · intro ch hp h0 h1
    have h := handler_setCompare PERIOD ch isr ev hp
    have hcur : 0 ≤ ch.curTim ev ∧ ch.curTim ev < PERIOD := by
      cases ch
      · exact hc1
      · exact hc2
    have hn : nextCompare PERIOD (ch.curTim ev) (ch.deltaAfterReceive isr ev)
        = (ch.curTim ev + ch.deltaAfterReceive isr ev) % PERIOD := by
      unfold nextCompare
      rw [if_pos (by omega), wrapU32_of_range _ (by omega) (by omega)]
    rw [hn] at h
    exact h

/-- Witness of C18: motor 1 at rest receives the setpoint 1000 and pushes a
compare value, and the handler serves both channels with counter readings 10
and 20, channel 1 receiving the half-period 300. -/
theorem compare_values_in_period_witness :
    (∃ out, controlCycle false 65535 1 restState setpoint1000Input = some out ∧
      out.compareWrites ≠ [] ∧
      ∀ cv ∈ out.compareWrites, 0 ≤ cv.2 ∧ cv.2 < 65535 ∧
        (0 ≤ out.msg.delta →
          ∃ k, k < 2 ∧ cv.2 = (setpoint1000Input.tim k + out.msg.delta) % 65535)) ∧
    HwEffect.setCompare Channel.cc1.number
        ((Channel.cc1.curTim bothPendingInput
          + Channel.cc1.deltaAfterReceive forwardState bothPendingInput) % 65535)
      ∈ (TIM4_IRQHandler 65535 forwardState bothPendingInput).2 := by
  have htim : ∀ k, k < 2 → 0 ≤ setpoint1000Input.tim k ∧ setpoint1000Input.tim k < 65535 := by
    intro k hk
    show 0 ≤ (100 : Int) + k ∧ (100 : Int) + k < 65535
    omega
  have h := compare_values_in_period false 65535 1 restState setpoint1000Input forwardState
    bothPendingInput (by decide) (by decide) htim (by decide) (by decide)
  have hs : stepTiming 65535 (cycleSpeed false 1 restState setpoint1000Input)
      = some { delta := 655, direction := 1 } := by decide
  have hc := controlCycle_some false 65535 1 restState setpoint1000Input _ hs
  exact ⟨⟨_, hc, by decide, h.1 _ hc⟩, h.2.2 .cc1 rfl (by decide) (by decide)⟩

/-! ## C19: the maximum speed bounds the pulse timing -/

theorem saturate_int_min (wMax : Int) (hm : 0 ≤ wMax) :
    saturate wMax (-2147483648) = -2147483648 := by
  have hab : absVal (-2147483648) = -2147483648 := by decide
  unfold saturate
  rw [hab, if_neg (by omega)]

theorem stepTiming_int_min (PERIOD : Int) : stepTiming PERIOD (-2147483648) = none := by
  have hdv : halfPeriodDivisor (-2147483648) = 0 := by decide
  simp [stepTiming, cDiv, hdv]

/-- A non-negative dividend divided by a larger positive divisor gives no
larger quotient. -/
theorem ediv_antitone (a c d : Int) (ha : 0 ≤ a) (hc : 0 < c) (hcd : c ≤ d) :
    a / d ≤ a / c := by
  have hq : 0 ≤ a / d := Int.ediv_nonneg ha (by omega)
  have h1 : a / d * d ≤ a := Int.ediv_mul_le a (by omega)
  have h2 : a / d * c ≤ a / d * d := mul_le_mul_of_nonneg_left hcd hq
  exact Int.le_ediv_of_mul_le hc (le_trans h2 h1)

/-- The speed of a cycle with `wMax ≥ 0` is within `wMax` or is the most
negative 32-bit value. -/
theorem cycleSpeed_bound (fullSetup : Bool) (motorNumber : Nat) (s : ControllerState)
    (inp : CycleInput) (hm : 0 ≤ (cycleParams s inp).wMax) :
    |cycleSpeed fullSetup motorNumber s inp| ≤ (cycleParams s inp).wMax ∨
      cycleSpeed fullSetup motorNumber s inp = -2147483648 := by
  unfold cycleSpeed newSpeed
  have hrl := rateLimit_isInt32 (cycleParams s inp).rLim (cycleParams s inp).dLim s.wAct _
    (refSpeed_isInt32 (cycleParams s inp) (cycleStepRef s inp)
      (getPulsCnt fullSetup inp.counters motorNumber))
  generalize rateLimit (cycleParams s inp).rLim (cycleParams s inp).dLim s.wAct
    (refSpeed (cycleParams s inp) (cycleStepRef s inp)
      (getPulsCnt fullSetup inp.counters motorNumber)) = w at hrl
  by_cases hmin : w = -2147483648
  · right
    rw [hmin]
    exact saturate_int_min _ hm
  · left
    exact saturate_bound _ w hm hrl hmin

/-- The timing bound for the cycles that complete: for a timer period
`0 ≤ PERIOD < 2^31` and a control cycle with `wMax > 0` and `2*wMax`
representable in 32 bits, a completed cycle whose command has a half-period
other than -1 has half-period `PERIOD / (2*|wNew|)`, at least
`PERIOD / (2*wMax)`; and for non-zero speeds with `|w1| ≤ |w2|`,
`PERIOD/(2*|w1|) ≥ PERIOD/(2*|w2|)`, which are the half-periods of `w1` and
`w2` when `2*|w2|` is representable in 32 bits. A cycle whose speed is `-2^31`
does not complete and is not covered. -/
theorem completed_cycle_timing_bound (fullSetup : Bool) (PERIOD : Int) (motorNumber : Nat)
    (s : ControllerState) (inp : CycleInput) (w1 w2 : Int)
    (hP0 : 0 ≤ PERIOD) (hP1 : PERIOD ≤ 2147483647)
    (hm : 0 < (cycleParams s inp).wMax) (hm2 : 2 * (cycleParams s inp).wMax ≤ 2147483647)
    (h1 : w1 ≠ 0) (h12 : |w1| ≤ |w2|) :
    (∀ out, controlCycle fullSetup PERIOD motorNumber s inp = some out →
      out.msg.delta ≠ -1 →
      out.msg.delta = PERIOD / (2 * |out.wNew|) ∧
      PERIOD / (2 * (cycleParams s inp).wMax) ≤ out.msg.delta) ∧
    PERIOD / (2 * |w2|) ≤ PERIOD / (2 * |w1|) ∧
    (2 * |w2| ≤ 2147483647 →
      ∃ m1 m2, stepTiming PERIOD w1 = some m1 ∧ stepTiming PERIOD w2 = some m2 ∧
        m1.delta = PERIOD / (2 * |w1|) ∧ m2.delta = PERIOD / (2 * |w2|) ∧
        m2.delta ≤ m1.delta) := by
  have hpos1 : 0 < |w1| := abs_pos.mpr h1
  have hmono : PERIOD / (2 * |w2|) ≤ PERIOD / (2 * |w1|) :=
    ediv_antitone PERIOD _ _ hP0 (by omega) (by omega)
  refine ⟨?_, hmono, ?_⟩
  · intro out hout hdl
    obtain ⟨m, hm', ho⟩ := controlCycle_inv fullSetup PERIOD motorNumber s inp out hout
    rw [ho] at hdl ⊢
    simp only at hdl ⊢
    rcases cycleSpeed_bound fullSetup motorNumber s inp (by omega) with hb | hb
    · have ht := stepTiming_small PERIOD _ hP0 hP1
        (show 2 * |cycleSpeed fullSetup motorNumber s inp| ≤ 2147483647 by omega)
      rw [hm'] at ht
      simp only [Option.some.injEq] at ht
      by_cases h0 : cycleSpeed fullSetup motorNumber s inp = 0
      · rw [ht, if_pos h0] at hdl
        exact absurd rfl hdl
      · rw [ht, if_neg h0]
        have hpos : 0 < |cycleSpeed fullSetup motorNumber s inp| := abs_pos.mpr h0
        exact ⟨rfl, ediv_antitone PERIOD _ _ hP0 (by omega) (by omega)⟩
    · rw [hb, stepTiming_int_min] at hm'
      exact absurd hm' (by simp)
  · intro h2
    have hpos2 : 0 < |w2| := lt_of_lt_of_le hpos1 h12
    have h20 : w2 ≠ 0 := abs_pos.mp hpos2
    have t1 := stepTiming_small PERIOD w1 hP0 hP1 (by omega)
    have t2 := stepTiming_small PERIOD w2 hP0 hP1 h2
    rw [if_neg h1] at t1
    rw [if_neg h20] at t2
    exact ⟨_, _, t1, t2, rfl, rfl, hmono⟩

/-- The timing bound at motor 1 at rest with `wMax = 1500` and the setpoint
1000: the half-period 655 is at least `65535 / 3000`; the speeds 50 and 1500
have the half-periods 655 and 21. -/
theorem completed_cycle_timing_bound_example :
    (∃ out, controlCycle false 65535 1 restState setpoint1000Input = some out ∧
      out.msg.delta = 65535 / (2 * |out.wNew|) ∧
      65535 / (2 * (cycleParams restState setpoint1000Input).wMax) ≤ out.msg.delta) ∧
    (65535 : Int) / (2 * |(1500 : Int)|) ≤ 65535 / (2 * |(50 : Int)|) ∧
    ∃ m1 m2, stepTiming 65535 50 = some m1 ∧ stepTiming 65535 1500 = some m2 ∧
      m1.delta = 65535 / (2 * |(50 : Int)|) ∧ m2.delta = 65535 / (2 * |(1500 : Int)|) ∧
      m2.delta ≤ m1.delta := by
  have h := completed_cycle_timing_bound false 65535 1 restState setpoint1000Input 50 1500
    (by decide) (by decide) (by decide) (by decide) (by decide) (by decide)
  have hs : stepTiming 65535 (cycleSpeed false 1 restState setpoint1000Input)
      = some { delta := 655, direction := 1 } := by decide
  have hc := controlCycle_some false 65535 1 restState setpoint1000Input _ hs
  exact ⟨⟨_, hc, h.1 _ hc (by decide)⟩, h.2.1, h.2.2 (by decide)⟩

/-- C19 (code defect): motor 1 at rest with `wMax = 1500` (positive, `2*wMax`
representable) receives the setpoint message `0xC0000000`; the speed leaves
saturation as `-2^31`, of magnitude above `wMax`, it is not 0, so line 117
computes the half-period of a non-stopped command as `PERIOD / 0`: the
division has no value and no half-period `≥ PERIOD / (2*wMax) = 21` is
produced. -/
theorem timing_bound_lost_at_int_min :
    0 < (cycleParams restState lowSetpointInput).wMax ∧
    2 * (cycleParams restState lowSetpointInput).wMax ≤ 2147483647 ∧
    cycleSpeed false 1 restState lowSetpointInput = -2147483648 ∧
    ¬ (|cycleSpeed false 1 restState lowSetpointInput|
        ≤ (cycleParams restState lowSetpointInput).wMax) ∧
    cycleSpeed false 1 restState lowSetpointInput ≠ 0 ∧
    sign (cycleSpeed false 1 restState lowSetpointInput) = -1 ∧
    cDiv 65535 (halfPeriodDivisor (cycleSpeed false 1 restState lowSetpointInput)) = none ∧
    controlCycle false 65535 1 restState lowSetpointInput = none ∧
    (65535 : Int) / (2 * (cycleParams restState lowSetpointInput).wMax) = 21 := by
  refine ⟨by decide, by decide, by decide, by decide, by decide, by decide, by decide,
    by decide, by decide⟩

/-! ## C20: odd symmetry of the control law -/

/-- With equal limits and no overflow, rate limiting commutes with
negation. -/
theorem rateLimit_negate (L w q : Int) (hL : 0 ≤ L)
    (hw : -2147483647 ≤ w ∧ w ≤ 2147483647) (hq : -2147483647 ≤ q ∧ q ≤ 2147483647)
    (hd : -2147483647 ≤ q - w ∧ q - w ≤ 2147483647) :
    rateLimit L L (-w) (-q) = -rateLimit L L w q ∧
      -2147483647 ≤ rateLimit L L w q ∧ rateLimit L L w q ≤ 2147483647 := by
  have e1 : wrap32 (q - w) = q - w := wrap32_of_isInt32 _ (by unfold isInt32; omega)
  have e2 : wrap32 (w - q) = w - q := wrap32_of_isInt32 _ (by unfold isInt32; omega)
  have e3 : wrap32 (-q - -w) = w - q := by
    rw [wrap32_of_isInt32 _ (by unfold isInt32; omega)]; omega
  have e4 : wrap32 (-w - -q) = q - w := by
    rw [wrap32_of_isInt32 _ (by unfold isInt32; omega)]; omega
  unfold rateLimit
  rw [e1, e2, e3, e4]
  by_cases h1 : q - w > L
  · rw [if_pos h1, if_neg (by omega), if_pos h1,
      wrap32_of_isInt32 (w + L) (by unfold isInt32; omega),
      wrap32_of_isInt32 (-w - L) (by unfold isInt32; omega)]
    omega
  · by_cases h2 : w - q > L
    · rw [if_neg h1, if_pos h2, if_pos h2,
        wrap32_of_isInt32 (w - L) (by unfold isInt32; omega),
        wrap32_of_isInt32 (-w + L) (by unfold isInt32; omega)]
      omega
    · rw [if_neg h1, if_neg h2, if_neg h2, if_neg h1]
      omega

/-- For a non-negative maximum, saturation commutes with negation on every
speed but the most negative one. -/
theorem saturate_negate (M x : Int) (hM : 0 ≤ M)
    (hx : -2147483647 ≤ x ∧ x ≤ 2147483647) :
    saturate M (-x) = -saturate M x ∧
      -2147483647 ≤ saturate M x ∧ saturate M x ≤ 2147483647 := by
  have a1 : absVal x = |x| := absVal_eq_abs x (by unfold isInt32; omega) (by omega)
  have a2 : absVal (-x) = |x| := by
    rw [absVal_eq_abs (-x) (by unfold isInt32; omega) (by omega), abs_neg]
  unfold saturate
  rw [a1, a2]
  simp only [sign_neg_iff, sign_pos_iff]
  by_cases hgt : |x| > M
  · have hle := abs_le.mp (show |x| ≤ 2147483647 from abs_le.mpr hx)
    have hwm : wrap32 (-1 * M) = -M := by
      rw [wrap32_of_isInt32 _ (by
        have := abs_le.mpr hx
        unfold isInt32; omega)]
      omega
    rw [if_pos hgt, if_pos hgt, hwm]
    rcases lt_trichotomy x 0 with h | h | h
    · rw [if_neg (by omega), if_pos (by omega), if_pos h]
      have := abs_le.mpr hx
      omega
    · rw [h] at hgt
      simp at hgt
      omega
    · rw [if_pos (by omega), if_neg (by omega), if_pos h]
      have := abs_le.mpr hx
      omega
  · rw [if_neg hgt, if_neg hgt]
    omega

/-- The command of the negated speed has the same half-period and the
opposite direction. -/
theorem stepTiming_negate (PERIOD x : Int) (hx : -2147483647 ≤ x ∧ x ≤ 2147483647) :
    stepTiming PERIOD (-x) =
      (stepTiming PERIOD x).map (fun m => { delta := m.delta, direction := -m.direction }) := by
  by_cases h0 : x = 0
  · subst h0
    simp [stepTiming]
  · have a1 : absVal x = |x| := absVal_eq_abs x (by unfold isInt32; omega) (by omega)
    have a2 : absVal (-x) = |x| := by
      rw [absVal_eq_abs (-x) (by unfold isInt32; omega) (by omega), abs_neg]
    have hdv : halfPeriodDivisor (-x) = halfPeriodDivisor x := by
      unfold halfPeriodDivisor
      rw [a1, a2]
    have hn0 : -x ≠ 0 := by omega
    have hsg : sign (-x) = -sign x := by
      unfold sign
      split_ifs <;> omega
    unfold stepTiming
    rw [if_neg h0, if_neg hn0, hdv, hsg]
    cases cDiv PERIOD (halfPeriodDivisor x) <;> rfl

/-- C20: two control cycles with the same parameters, `rLim = dLim ≥ 0` and
`wMax ≥ 0`, whose errors and current speeds are negatives of each other, and
in which the error `e`, the product `e*P`, the current speed `w` and the
difference `e*P - w` have magnitudes representable in 32 bits, both
complete; the second ends with the negated speed of the first and publishes
the same half-period and the opposite direction. -/
theorem odd_symmetry (fullSetup : Bool) (PERIOD : Int) (motorNumber : Nat)
    (s t : ControllerState) (inp jnp : CycleInput)
    (hpar : cycleParams t jnp = cycleParams s inp)
    (hlim : (cycleParams s inp).rLim = (cycleParams s inp).dLim)
    (hl0 : 0 ≤ (cycleParams s inp).rLim) (hm : 0 ≤ (cycleParams s inp).wMax)
    (herr : cycleStepRef t jnp - getPulsCnt fullSetup jnp.counters motorNumber
      = -(cycleStepRef s inp - getPulsCnt fullSetup inp.counters motorNumber))
    (hw : t.wAct = -s.wAct)
    (he : |cycleStepRef s inp - getPulsCnt fullSetup inp.counters motorNumber| ≤ 2147483647)
    (hq : |(cycleStepRef s inp - getPulsCnt fullSetup inp.counters motorNumber)
      * (cycleParams s inp).P| ≤ 2147483647)
    (hwa : |s.wAct| ≤ 2147483647)
    (hd : |(cycleStepRef s inp - getPulsCnt fullSetup inp.counters motorNumber)
      * (cycleParams s inp).P - s.wAct| ≤ 2147483647) :
    ∃ out out', controlCycle fullSetup PERIOD motorNumber s inp = some out ∧
      controlCycle fullSetup PERIOD motorNumber t jnp = some out' ∧
      out'.wNew = -out.wNew ∧ out'.msg.delta = out.msg.delta ∧
      out'.msg.direction = -out.msg.direction := by
  have he' := abs_le.mp he
  have hq' := abs_le.mp hq
  have hwa' := abs_le.mp hwa
  have hd' := abs_le.mp hd
  have r1 : refSpeed (cycleParams s inp) (cycleStepRef s inp)
      (getPulsCnt fullSetup inp.counters motorNumber)
      = (cycleStepRef s inp - getPulsCnt fullSetup inp.counters motorNumber)
        * (cycleParams s inp).P := by
    rw [refSpeed_eq_controlError]
    unfold controlError
    rw [wrap32_of_isInt32 (cycleStepRef s inp - getPulsCnt fullSetup inp.counters motorNumber)
      (by unfold isInt32; omega)]
    exact wrap32_of_isInt32 _ (by unfold isInt32; omega)
  have r2 : refSpeed (cycleParams s inp) (cycleStepRef t jnp)
      (getPulsCnt fullSetup jnp.counters motorNumber)
      = -((cycleStepRef s inp - getPulsCnt fullSetup inp.counters motorNumber)
        * (cycleParams s inp).P) := by
    rw [refSpeed_eq_controlError]
    unfold controlError
    rw [herr, wrap32_of_isInt32
      (-(cycleStepRef s inp - getPulsCnt fullSetup inp.counters motorNumber))
      (by unfold isInt32; omega), neg_mul]
    exact wrap32_of_isInt32 _ (by unfold isInt32; omega)
  obtain ⟨n1, b1, b2⟩ := rateLimit_negate (cycleParams s inp).rLim s.wAct
    ((cycleStepRef s inp - getPulsCnt fullSetup inp.counters motorNumber)
      * (cycleParams s inp).P) hl0 hwa' hq' hd'
  obtain ⟨n2, c1, c2⟩ := saturate_negate (cycleParams s inp).wMax _ hm ⟨b1, b2⟩
  have sp1 : cycleSpeed fullSetup motorNumber s inp =
      saturate (cycleParams s inp).wMax
        (rateLimit (cycleParams s inp).rLim (cycleParams s inp).rLim s.wAct
          ((cycleStepRef s inp - getPulsCnt fullSetup inp.counters motorNumber)
            * (cycleParams s inp).P)) := by
    unfold cycleSpeed newSpeed
    rw [r1, ← hlim]
  have sp2 : cycleSpeed fullSetup motorNumber t jnp =
      -cycleSpeed fullSetup motorNumber s inp := by
    rw [sp1, ← n2, ← n1]
    unfold cycleSpeed newSpeed
    rw [hpar, r2, hw, ← hlim]
  rw [← sp1] at c1 c2
  obtain ⟨m, hm1⟩ := stepTiming_some PERIOD (cycleSpeed fullSetup motorNumber s inp)
    (by unfold isInt32; omega) (by omega)
  have hm2 : stepTiming PERIOD (cycleSpeed fullSetup motorNumber t jnp)
      = some { delta := m.delta, direction := -m.direction } := by
    rw [sp2, stepTiming_negate PERIOD _ ⟨c1, c2⟩, hm1]
    rfl
  exact ⟨_, _, controlCycle_some fullSetup PERIOD motorNumber s inp m hm1,
    controlCycle_some fullSetup PERIOD motorNumber t jnp _ hm2, sp2, rfl, rfl⟩

/-- Witness of C20: motor 1 at rest with the example parameters, once with
the counter at -1000 (error 1000) and once with the counter at 1000
(error -1000). -/
theorem odd_symmetry_witness :
    ∃ out out', controlCycle false 65535 1 restState (readingInput (-1000)) = some out ∧
      controlCycle false 65535 1 restState (readingInput 1000) = some out' ∧
      out'.wNew = -out.wNew ∧ out'.msg.delta = out.msg.delta ∧
      out'.msg.direction = -out.msg.direction :=
  odd_symmetry false 65535 1 restState restState (readingInput (-1000)) (readingInput 1000)
    rfl (by decide) (by decide) (by decide) (by decide) (by decide) (by decide) (by decide)
    (by decide) (by decide)

end StepperControl

